import Mathlib

/-!
Verification of the universal-mcp-client conversation engine.

This file gives a shallow embedding, in Lean 4, of the multi-provider
conversation normalization engine of the `universal-mcp-client` repository
(`src/mcp-client.js` and `src/providers/{anthropic,openai,deepseek,
huggingface}.js`), together with theorems settling the frozen claims about
that code.

Modelling conventions:
- JavaScript strings are Lean `String`s; where the source manipulates a
  string character by character (data-URI prefix stripping, the regexes
  used for data URLs) the embedding works on the underlying `List Char`.
- JSON values are modelled by the inductive `Json` below (numbers as `Int`;
  no claim depends on float semantics).  `JSON.parse` is an external
  library routine; the embedding is parametrized by a parse oracle
  `pjv : String → Option Json` (`none` models a thrown `SyntaxError`).
  All theorems hold for every oracle.
- Fallible / throwing code paths are modelled with `Option` / `Except`.
- The canonical conversation-history message shapes are modelled by `Msg`,
  covering exactly the shapes the orchestrator ever appends (plain-string
  user input, user messages made of text/image parts, assistant messages
  with optional tool calls, tool-result messages, system messages).
-/

set_option maxHeartbeats 1600000

namespace UMC

/-- JSON values, as produced by `JSON.parse` / consumed by `JSON.stringify`.
Object fields are an ordered association list (JS insertion order). -/
inductive Json where
  | null
  | bool (b : Bool)
  | num (n : Int)
  | str (s : String)
  | arr (elems : List Json)
  | obj (fields : List (String × Json))

mutual

/-- `JSON.stringify` on the `Json` model (string escaping is not modelled;
no claim compares serializations of strings containing quotes). -/
def Json.stringify : Json → String
  | .null => "null"
  | .bool true => "true"
  | .bool false => "false"
  | .num n => toString n
  | .str s => "\"" ++ s ++ "\""
  | .arr elems => "[" ++ Json.stringifyList elems ++ "]"
  | .obj fields => "\x7b" ++ Json.stringifyFields fields ++ "\x7d"

def Json.stringifyList : List Json → String
  | [] => ""
  | [j] => Json.stringify j
  | j :: rest => Json.stringify j ++ "," ++ Json.stringifyList rest

def Json.stringifyFields : List (String × Json) → String
  | [] => ""
  | [(k, j)] => "\"" ++ k ++ "\":" ++ Json.stringify j
  | (k, j) :: rest => "\"" ++ k ++ "\":" ++ Json.stringify j ++ "," ++ Json.stringifyFields rest

end

/-- JavaScript truthiness on the `Json` model (`null`, `false`, `0`, `""`
are falsy). -/
def Json.truthy : Json → Bool
  | .null => false
  | .bool b => b
  | .num n => n != 0
  | .str s => s ≠ ""
  | .arr _ => true
  | .obj _ => true

/-- `x || {}` on an optional JSON value (absent or falsy becomes `{}`),
as in `toolCall.args || {}`. -/
def jsOrEmptyObj : Option Json → Json
  | none => .obj []
  | some j => if j.truthy then j else .obj []

/-! ## Character-level string helpers

The source strips data-URI prefixes with `startsWith`/`indexOf`/`substring`
and with regexes; those operations are embedded here on `List Char`. -/

/-- `a.startsWith(p)` on character lists. -/
def startsWithChars : List Char → List Char → Bool
  | [], _ => true
  | _ :: _, [] => false
  | p :: ps, c :: cs => p = c && startsWithChars ps cs

/-- Everything after the first `','`, or `none` when there is no comma
(`indexOf(',')` returning `-1`). -/
def afterFirstComma : List Char → Option (List Char)
  | [] => none
  | c :: cs => if c = ',' then some cs else afterFirstComma cs

/-- `s.substring(s.indexOf(',') + 1)`: when no comma exists `indexOf`
returns `-1`, so the substring is the whole string. -/
def substringAfterComma (l : List Char) : List Char :=
  match afterFirstComma l with
  | some r => r
  | none => l

/-- The characters of the literal `"data:"`. -/
def dataColonChars : List Char := ['d', 'a', 't', 'a', ':']

/-- `MCPClient._extractImageFromMcpToolResult`'s prefix strip:
`if (base64Data.startsWith('data:')) base64Data =
base64Data.substring(base64Data.indexOf(',') + 1)`. -/
def stripDataUriByComma (s : String) : String :=
  if startsWithChars dataColonChars s.data then ⟨substringAfterComma s.data⟩ else s

/-- Character class of the mime-type group in the data-URL regex
`^data:([\w\/\-\.]+);base64,(.*)$` used by
`AnthropicProvider._parseDataUrl` and `GoogleProvider._parseDataUrl`. -/
def isMimeChar (c : Char) : Bool :=
  c.isAlpha || c.isDigit || c = '_' || c = '/' || c = '-' || c = '.'

/-- The characters of the literal `";base64,"`. -/
def semBase64Chars : List Char := [';', 'b', 'a', 's', 'e', '6', '4', ',']

/-- Drop a literal prefix, or `none` when it is not a prefix. -/
def dropLiteral : List Char → List Char → Option (List Char)
  | [], l => some l
  | _ :: _, [] => none
  | p :: ps, c :: cs => if p = c then dropLiteral ps cs else none

/-- The regex `^data:([\w\/\-\.]+);base64,(.*)$` of `_parseDataUrl`:
after `data:` the mime group is the maximal run of mime characters (the
class excludes `;`), then the literal `;base64,`, then the payload.
Returns `(mimeType, base64Data)`. -/
def parseDataUrlChars (l : List Char) : Option (String × String) :=
  match dropLiteral dataColonChars l with
  | none => none
  | some rest =>
    let mime := rest.takeWhile isMimeChar
    let after := rest.dropWhile isMimeChar
    if mime.isEmpty then none
    else
      match dropLiteral semBase64Chars after with
      | none => none
      | some payload => some (⟨mime⟩, ⟨payload⟩)

/-- `AnthropicProvider._parseDataUrl` / `GoogleProvider._parseDataUrl`. -/
def parseDataUrl (s : String) : Option (String × String) :=
  parseDataUrlChars s.data

/-- Character class of the regex `/^data:[a-zA-Z0-9\/+]+;base64,/` used in
`AnthropicProvider.convertToolResult` (and, written `[a-zA-Z0-9\/\+]`, in
`HuggingFaceProvider.extractImageFromToolResult`) to strip a data-URI
prefix. -/
def isB64Char (c : Char) : Bool :=
  c.isAlpha || c.isDigit || c = '/' || c = '+'

/-- Character class of the regex `/^data:[a-zA-Z0-9\\/\\+]+;base64,/` of
`OpenAIProvider.extractImageFromToolResult` and (written
`[a-zA-Z0-9\\/+]`) of `GoogleProvider.extractImageFromToolResult`: the
double backslash inside the class matches a literal backslash. -/
def isB64CharBackslash (c : Char) : Bool :=
  c.isAlpha || c.isDigit || c = '\\' || c = '/' || c = '+'

/-- Whether `/^data:[class]+;base64,/` matches, for a character class. -/
def matchesB64Head (cls : Char → Bool) (l : List Char) : Bool :=
  match dropLiteral dataColonChars l with
  | none => false
  | some rest =>
    let body := rest.takeWhile cls
    let after := rest.dropWhile cls
    !body.isEmpty && (startsWithChars semBase64Chars after)

/-- `s.replace(/^data:[class]+;base64,/, '')` after a successful test. -/
def stripB64Head (cls : Char → Bool) (l : List Char) : List Char :=
  match dropLiteral dataColonChars l with
  | none => l
  | some rest =>
    let after := rest.dropWhile cls
    match dropLiteral semBase64Chars after with
    | some payload => payload
    | none => l

/-- The prefix-strip pattern
`if (regex.test(d)) d = d.replace(regex, '')` shared (with per-file
character classes) by the providers. -/
def stripIfB64Head (cls : Char → Bool) (s : String) : String :=
  if matchesB64Head cls s.data then ⟨stripB64Head cls s.data⟩ else s

/-- A data URI assembled by a template literal
`` `data:${mimeType};base64,${data}` ``. -/
def mkDataUri (mimeType data : String) : String :=
  "data:" ++ mimeType ++ ";base64," ++ data

/-- Whitespace for `String.prototype.trim` (the ASCII subset; every use in
the source only compares the trimmed string against `""`). -/
def isJsSpace (c : Char) : Bool :=
  c = ' ' || c = '\t' || c = '\n' || c = '\r' || c = '\x0b' || c = '\x0c'

/-- `s.trim()`: strip leading and trailing whitespace. -/
def jsTrim (s : String) : String :=
  ⟨((s.data.dropWhile isJsSpace).reverse.dropWhile isJsSpace).reverse⟩

/-- `s.toLowerCase()`. -/
def jsToLower (s : String) : String := ⟨s.data.map Char.toLower⟩

/-- `s.substring(0, n)` (JS): the first `n` characters. -/
def jsTake (n : Nat) (s : String) : String := ⟨s.data.take n⟩

/-- `s.substring(0,n) + (s.length > n ? '...' : '')`, the truncation idiom
used when the source builds image prompts. -/
def jsTruncate (n : Nat) (s : String) : String :=
  jsTake n s ++ (if s.data.length > n then "..." else "")

/-! ## Canonical data model

The canonical conversation history of `MCPClient` (`this.conversation`). -/

/-- A tool call as stored in canonical history
(`{id, name, args}`, `args` a structured value or absent). -/
structure ToolCall where
  id : String
  name : String
  args : Option Json

/-- A content block inside an MCP tool result's `content` array. -/
inductive ContentBlock where
  | text (text : String)
  | image (data : String) (mimeType : String)
  | data (payload : Json)
  | other (tag : String)

/-- A tool result's direct `image` property: `{base64Data?, mimeType?}`
(either field may be missing, which the source's `typeof` checks probe). -/
structure ImageField where
  base64Data : Option String
  mimeType : Option String

/-- The structured value returned by a tool invocation: a bare string or an
object with optional `image` property, optional top-level
`base64Data`/`mimeType` fields, optional `content` block array, and other
fields. -/
inductive ToolResult where
  | str (s : String)
  | obj (image : Option ImageField) (base64Data : Option String)
      (mimeType : Option String) (content : Option (List ContentBlock))
      (rest : List (String × Json))

/-- A typed part of a canonical user message's content array: text,
OpenAI-native `image_url`, Anthropic-native `image` source block, the
cross-provider canonical `image_mcp` part, or an unrecognized part. -/
inductive UserPart where
  | text (text : String)
  | imageUrl (url : String)
  | image (mediaType : String) (data : String)
  | imageMcp (mediaType : String) (data : String)
  | other (tag : String)

/-- User message content: a plain string or an array of parts. -/
inductive UserContent where
  | str (s : String)
  | parts (l : List UserPart)

/-- A message of the canonical conversation history. -/
inductive Msg where
  | user (content : UserContent)
  | assistant (content : String) (toolCalls : Option (List ToolCall))
  | tool (toolCallId : String) (name : String) (content : ToolResult)
  | system (content : String)

/-- `ImageField` as a JSON object (present fields only, source order). -/
def ImageField.toJson (f : ImageField) : Json :=
  .obj ((match f.base64Data with
          | some d => [("base64Data", Json.str d)]
          | none => []) ++
        (match f.mimeType with
          | some m => [("mimeType", Json.str m)]
          | none => []))

/-- A content block as a JSON value. -/
def ContentBlock.toJson : ContentBlock → Json
  | .text t => .obj [("type", .str "text"), ("text", .str t)]
  | .image d m => .obj [("type", .str "image"), ("data", .str d), ("mimeType", .str m)]
  | .data j => .obj [("type", .str "data"), ("data", j)]
  | .other tag => .obj [("type", .str tag)]

/-- The fields of a tool-result object other than `image`
(used by `const { image, ...otherProps } = mcpToolResult`). -/
def ToolResult.otherPropsFields : ToolResult → List (String × Json)
  | .str _ => []
  | .obj _ b64 mt content rest =>
    (match b64 with | some d => [("base64Data", Json.str d)] | none => []) ++
    (match mt with | some m => [("mimeType", Json.str m)] | none => []) ++
    (match content with
      | some blocks => [("content", Json.arr (blocks.map ContentBlock.toJson))]
      | none => []) ++
    rest

/-- A tool result as the JSON value seen by `JSON.stringify`. -/
def ToolResult.toJson : ToolResult → Json
  | .str s => .str s
  | .obj img b64 mt content rest =>
    .obj ((match img with | some f => [("image", f.toJson)] | none => []) ++
          (ToolResult.obj img b64 mt content rest).otherPropsFields)

/-! ## MCPClient: history bound and trimming -/

namespace MCPClient

/-- An optional configuration value as fed to `parseInt(v, 10)`: absent,
a string with no leading integer (`parseInt` gives `NaN`), or a value whose
`parseInt` result is the integer `n`. -/
inductive ConfigVal where
  | absent
  | nonNumeric (s : String)
  | num (n : Int)

/-- `parseInt(v, 10)` (`none` models `NaN`). -/
def parseIntJs : ConfigVal → Option Int
  | .absent => none
  | .nonNumeric _ => none
  | .num n => some n

/-- The guard `!isNaN(v) && v > 0` applied to a `parseInt` result:
the value when it is a positive integer, otherwise nothing. -/
def positiveOrNone : Option Int → Option Int
  | some n => if 0 < n then some n else none
  | none => none

/-- The constructor's computation of `this.maxConversationHistoryLength`
from `config.maxConversationHistoryLength` and
`process.env.MAX_CONVERSATION_HISTORY_LENGTH`
(`src/mcp-client.js` lines 92-101): the config value when it parses to a
positive integer, else the environment value when it does, else `null`. -/
def computeMaxHistoryLength (cfg env : ConfigVal) : Option Int :=
  match positiveOrNone (parseIntJs cfg) with
  | some n => some n
  | none => positiveOrNone (parseIntJs env)

/-- `MCPClient._trimConversationHistory` (`src/mcp-client.js` lines
158-164): when a truthy bound is configured and the history is longer,
splice off `length - max` messages from the front; the second component is
the number of removed messages reported by the log line. -/
def trimConversationHistory (maxLen : Option Int) (conv : List Msg) :
    List Msg × Nat :=
  match maxLen with
  | none => (conv, 0)
  | some m =>
    if m ≠ 0 ∧ (conv.length : Int) > m then
      let numToRemove := ((conv.length : Int) - m).toNat
      (conv.drop numToRemove, numToRemove)
    else (conv, 0)

/-- `MCPClient._extractImageFromMcpToolResult` (`src/mcp-client.js` lines
731-765): canonical image extraction.  Scenario 1 checks
`toolResultContent.image || toolResultContent` for string
`base64Data`/`mimeType` fields; scenario 2 searches the `content` array;
a `data:` prefix is stripped via `substring(indexOf(',') + 1)`. -/
def extractImageFromMcpToolResult (r : ToolResult) : Option (String × String) :=
  match r with
  | .str _ => none
  | .obj img b64 mt content _ =>
    let direct : Option (String × String) :=
      match img with
      | some f =>
        match f.base64Data, f.mimeType with
        | some d, some m => some (d, m)
        | _, _ => none
      | none =>
        -- `toolResultContent.image || toolResultContent`: with no `image`
        -- property the object itself is probed for the two fields.
        match b64, mt with
        | some d, some m => some (d, m)
        | _, _ => none
    match direct with
    | some (d, m) => some (stripDataUriByComma d, m)
    | none =>
      match content with
      | some blocks =>
        match blocks.find? (fun b => match b with | .image _ _ => true | _ => false) with
        | some (.image d m) => some (stripDataUriByComma d, m)
        | _ => none
      | none => none

/-- The synthetic canonical user message appended by
`MCPClient.handleLLMResponse` after a continuation, when the tool result
carried an image (`src/mcp-client.js` lines 846-868): an `image_mcp` part
plus an explanatory text part. -/
def syntheticImageUserMsg (toolName mimeType base64Data : String) : Msg :=
  .user (.parts
    [ .imageMcp mimeType base64Data,
      .text ("[Image from tool '" ++ toolName ++
        "'. This is the image content. You can now analyze this image.]") ])

end MCPClient

/-! ## OpenAI-compatible raw responses (OpenAI, DeepSeek, Hugging Face) -/

/-- `tc.function` of a raw OpenAI-style tool call. -/
structure OAIFunctionCall where
  name : String
  arguments : String

/-- A raw tool call in an OpenAI-compatible chat-completion response. -/
structure OAIRawToolCall where
  id : String
  type : String
  function : OAIFunctionCall

/-- `choices[i].message` of an OpenAI-compatible response. -/
structure OAIMessage where
  content : Option String
  tool_calls : Option (List OAIRawToolCall)

/-- One entry of `choices`. -/
structure OAIChoice where
  message : OAIMessage

/-- A raw OpenAI-compatible chat-completion response. -/
structure OAIResponse where
  choices : List OAIChoice

/-! ## Anthropic raw responses -/

/-- A content block of a raw Anthropic messages-API response. -/
inductive AnthRespBlock where
  | text (text : String)
  | toolUse (id : String) (name : String) (input : Option Json)
  | other (tag : String)

/-- A raw Anthropic response (`content` may be missing). -/
structure AnthResponse where
  content : Option (List AnthRespBlock)

/-! ## Google raw responses -/

/-- A part of a Google candidate's content. -/
inductive GRespPart where
  | text (text : String)
  | functionCall (name : String) (args : Option Json)
  | other (tag : String)

/-- `candidates[i].content` (optional chaining in the source). -/
structure GoogleCandidateContent where
  parts : Option (List GRespPart)

/-- One entry of `candidates`. -/
structure GoogleCandidate where
  content : Option GoogleCandidateContent

/-- `llmResponse.response` of a Google SDK send result. -/
structure GoogleResponseBody where
  candidates : Option (List GoogleCandidate)

/-- A raw Google SDK send result (`llmResponse?.response?...`). -/
structure GoogleResponse where
  response : Option GoogleResponseBody

/-! ## Shared tool-result summarization (string-variant adapters)

`OpenAIProvider._convertToolResultForOpenAI` (openai.js lines 76-101),
`DeepSeekProvider._convertToolResultForDeepSeek` (deepseek.js lines 48-73)
and `HuggingFaceProvider._convertToolResultForPartner` (huggingface.js
lines 107-121) duplicate one summarization routine; it is embedded once
here and referenced by each adapter's definition. -/

/-- The scan of the `content` array for the first text part whose content
`JSON.parse`s successfully (the loop returns that text verbatim). -/
def findFirstParsableText (pjv : String → Option Json) :
    List ContentBlock → Option String
  | [] => none
  | .text t :: rest =>
    if (pjv t).isSome then some t else findFirstParsableText pjv rest
  | _ :: rest => findFirstParsableText pjv rest

/-- The first `text`-typed block's content, in block order
(`firstTextPartContent` in the source). -/
def firstTextBlock : List ContentBlock → Option String
  | [] => none
  | .text t :: _ => some t
  | _ :: rest => firstTextBlock rest

/-- `content.find(p => p.type === 'data' && typeof p.data !== 'undefined')`. -/
def firstDataBlock : List ContentBlock → Option Json
  | [] => none
  | .data j :: _ => some j
  | _ :: rest => firstDataBlock rest

/-- The shared string summarization of a tool result: a string passes
through; with a `content` array, the first JSON-parsable text part wins,
else the first `data` part is stringified, else the first text part;
otherwise `JSON.stringify` of the whole result. -/
def toolResultTextSummary (pjv : String → Option Json) (r : ToolResult) : String :=
  match r with
  | .str s => s
  | .obj _ _ _ (some blocks) _ =>
    match findFirstParsableText pjv blocks with
    | some t => t
    | none =>
      match firstDataBlock blocks with
      | some j => j.stringify
      | none =>
        match firstTextBlock blocks with
        | some t => t
        | none => (ToolResult.toJson r).stringify
  | _ => (ToolResult.toJson r).stringify

/-- The image probe shared by `_convertToolResultForOpenAI` (openai.js
lines 59-68) and `_convertToolResultForPartner` (huggingface.js lines
87-96): a truthy `image` property with a string `base64Data` and truthy
`mimeType`, or else some `content` part of type `image` with truthy string
`data` and truthy `mimeType`. -/
def hasImageInToolResult (r : ToolResult) : Bool :=
  match r with
  | .str _ => false
  | .obj img _ _ content _ =>
    let direct :=
      match img with
      | some f =>
        (match f.base64Data with | some _ => true | none => false) &&
        (match f.mimeType with | some m => m ≠ "" | none => false)
      | none => false
    if direct then true
    else
      match content with
      | some blocks =>
        blocks.any fun b =>
          match b with
          | .image d m => d ≠ "" && m ≠ ""
          | _ => false
      | none => false

/-- The neutral placeholder returned for image-bearing tool results by the
OpenAI and Hugging Face adapters. -/
def imagePlaceholderText : String :=
  "Tool execution was successful. Output includes image data, which will be processed separately if applicable by the client."

/-- The image probe shared verbatim by
`OpenAIProvider.extractImageFromToolResult` (openai.js lines 109-142),
`HuggingFaceProvider.extractImageFromToolResult` (huggingface.js lines
124-148) and `GoogleProvider.extractImageFromToolResult` (GoogleProvider
lines 584-617), parametrized by each file's regex character class: a
direct `image` property (string `base64Data`, truthy `mimeType`), else
the first `content` part of type `image` with truthy string `data` and
truthy `mimeType`; a final truthiness check, then the data-URI prefix of
the payload is stripped. -/
def extractImageOpenAIStyle (cls : Char → Bool) (r : ToolResult) :
    Option (String × String) :=
  match r with
  | .str _ => none
  | .obj img _ _ content _ =>
    let direct : Option (String × String) :=
      match img with
      | some f =>
        match f.base64Data, f.mimeType with
        | some d, some m => if m ≠ "" then some (d, m) else none
        | _, _ => none
      | none => none
    let found : Option (String × String) :=
      match direct with
      | some dm => some dm
      | none =>
        match content with
        | some blocks =>
          blocks.findSome? fun b =>
            match b with
            | .image d m => if d ≠ "" ∧ m ≠ "" then some (d, m) else none
            | _ => none
        | none => none
    match found with
    | some (d, m) =>
      if d ≠ "" ∧ m ≠ "" then some (stripIfB64Head cls d, m) else none
    | none => none

namespace OpenAIProvider

/-- `OpenAIProvider._convertToolResultForOpenAI` (openai.js lines 51-102):
image-bearing results collapse to a neutral placeholder, otherwise the
shared summarization applies. -/
def convertToolResult (pjv : String → Option Json) (r : ToolResult) : String :=
  if hasImageInToolResult r then imagePlaceholderText
  else toolResultTextSummary pjv r

/-- A content part of a formatted OpenAI request message. -/
inductive OAIPart where
  | text (text : String)
  | imageUrl (url : String)

/-- The content of a formatted OpenAI request message (`null` is the
explicit null content of assistant messages without text). -/
inductive OAIContent where
  | str (s : String)
  | parts (l : List OAIPart)
  | null

/-- A formatted OpenAI tool call
(`{id, type: 'function', function: {name, arguments}}`). -/
structure OAIOutToolCall where
  id : String
  type : String
  function : OAIFunctionCall

/-- A formatted OpenAI request message. -/
structure OAIOutMsg where
  role : String
  content : OAIContent
  tool_call_id : Option String
  tool_calls : Option (List OAIOutToolCall)

/-- Whether the history already begins with a `system`-role message. -/
def leadsWithSystem : List Msg → Bool
  | .system _ :: _ => true
  | _ => false

/-- `typeof tc.args === 'string' ? tc.args : JSON.stringify(tc.args || {})`. -/
def argsToArgumentsString : Option Json → String
  | some (.str s) => s
  | a => (jsOrEmptyObj a).stringify

/-- The per-part conversion of a user message's content array
(openai.js lines 188-208, 256-258): text and `image_url` parts pass
through, Anthropic `image` source blocks and canonical `image_mcp` parts
(truthy media type and data) become `image_url` data URIs, anything else
is skipped.  (Anthropic-style `tool_result` parts never occur in canonical
history and are outside the `UserPart` model.) -/
def processUserParts (l : List UserPart) : List OAIPart :=
  l.filterMap fun p =>
    match p with
    | .text t => some (OAIPart.text t)
    | .imageUrl url => some (OAIPart.imageUrl url)
    | .image mt d =>
      if mt ≠ "" ∧ d ≠ "" then some (OAIPart.imageUrl (mkDataUri mt d)) else none
    | .imageMcp mt d =>
      if mt ≠ "" ∧ d ≠ "" then some (OAIPart.imageUrl (mkDataUri mt d)) else none
    | .other _ => none

/-- `OpenAIProvider.extractImageFromToolResult` (openai.js lines 109-142). -/
def extractImageFromToolResult (r : ToolResult) : Option (String × String) :=
  extractImageOpenAIStyle isB64CharBackslash r

/-- `OpenAIProvider.prepareImageMessageContent` (openai.js lines 151-161):
the text-plus-`image_url` content array of the synthetic user message.
The orchestrator stores these OpenAI-native parts directly in canonical
history, hence the `UserPart` result type. -/
def prepareImageMessageContent (base64ImageData mimeType textPrompt : String) :
    List UserPart :=
  [.text textPrompt, .imageUrl (mkDataUri mimeType base64ImageData)]

/-- Case-insensitive-free field access on the model of a JS object's
remaining fields (first binding wins, as JS keys are unique). -/
def lookupField : List (String × Json) → String → Option Json
  | [], _ => none
  | (k, v) :: rest, key => if k = key then some v else lookupField rest key

/-- The `commonTextFields` probe of openai.js lines 319-325: the first of
`text`, `summary`, `description`, `message` bound to a string. -/
def firstCommonTextField (rest : List (String × Json)) : Option String :=
  ["text", "summary", "description", "message"].findSome? fun field =>
    match lookupField rest field with
    | some (.str s) => some s
    | _ => none

/-- The fields of `{...message.content}` after
`delete tempObj.image; delete tempObj.base64Data; delete tempObj.data;
delete tempObj.content` (openai.js lines 327-328). -/
def tempObjFields (mt : Option String) (rest : List (String × Json)) :
    List (String × Json) :=
  (match mt with | some m => [("mimeType", Json.str m)] | none => []) ++
  rest.filter fun kv =>
    !(kv.1 == "image" || kv.1 == "base64Data" || kv.1 == "data" || kv.1 == "content")

/-- `textualContentFromToolResult` of openai.js lines 310-335: the text
accompanying a historical image-bearing tool result. -/
def textualContentFromToolResult (r : ToolResult) (toolName : String) : String :=
  let dflt := "Image captured by tool '" ++ toolName ++ "'."
  match r with
  | .str s => s
  | .obj _ _ _ (some blocks) _ =>
    match firstTextBlock blocks with
    | some t => if t ≠ "" then t else dflt
    | none => dflt
  | .obj _ _ mt none rest =>
    match firstCommonTextField rest with
    | some s => s
    | none =>
      let tmp := tempObjFields mt rest
      if tmp.isEmpty then dflt else Json.stringify (.obj tmp)

/-- The synthetic image prompt of openai.js line 337. -/
def historicalImagePrompt (toolName tcid textual sfx : String) : String :=
  "The tool '" ++ toolName ++ "' (called with ID: " ++
  (if tcid ≠ "" then tcid else "N/A") ++
  ") previously returned an image, and its summary has just been provided. Original textual information from tool: \"" ++
  jsTruncate 150 textual ++ "\". This image is now being provided separately. " ++ sfx

/-- `OpenAIProvider.formatConversation` (openai.js lines 163-354): inject
the system message unless one leads the history; drop `system` history
messages; pass user content through `processUserParts` (an all-skipped
array degrades to content `''`); assistant messages keep non-blank text
(else explicit `null`) and formatted tool calls, and are dropped when they
have neither; every `tool` message becomes a `tool`-role turn carrying the
string conversion, followed — when the tool result carries an image — by a
synthetic user turn with an explanatory prompt and the image as a data-URI
`image_url`. -/
def formatConversation (pjv : String → Option Json)
    (systemMessage imageAnalysisPromptSuffix : String) (hist : List Msg) :
    List OAIOutMsg :=
  let head : List OAIOutMsg :=
    if systemMessage ≠ "" ∧ leadsWithSystem hist = false then
      [⟨"system", .str systemMessage, none, none⟩]
    else []
  head ++ hist.flatMap fun m =>
    match m with
    | .system _ => []
    | .user content =>
      match content with
      | .str s => [⟨"user", .str s, none, none⟩]
      | .parts l =>
        let newContentArray := processUserParts l
        if 0 < newContentArray.length then
          [⟨"user", .parts newContentArray, none, none⟩]
        else
          [⟨"user", .str "", none, none⟩]
    | .assistant content toolCalls =>
      let contentV : OAIContent :=
        if jsTrim content ≠ "" then .str content else .null
      let tcs : Option (List OAIOutToolCall) :=
        match toolCalls with
        | some l =>
          if 0 < l.length then
            some (l.map fun tc =>
              ⟨tc.id, "function", ⟨tc.name, argsToArgumentsString tc.args⟩⟩)
          else none
        | none => none
      let contentTruthy : Bool :=
        match contentV with
        | .str _ => true
        | _ => false
      if contentTruthy || tcs.isSome then
        [⟨"assistant", contentV, none, tcs⟩]
      else []
    | .tool tcid name content =>
      let toolMsg : OAIOutMsg :=
        ⟨"tool", .str (convertToolResult pjv content), some tcid, none⟩
      -- `if (base64ImageData && mimeType)` at the call site re-tests the
      -- *stripped* payload, which may have become empty.
      match extractImageFromToolResult content with
      | some (d, m) =>
        if d ≠ "" then
          [toolMsg,
           ⟨"user", .parts
              [.text (historicalImagePrompt name tcid
                (textualContentFromToolResult content name) imageAnalysisPromptSuffix),
               .imageUrl (mkDataUri m d)], none, none⟩]
        else [toolMsg]
      | none => [toolMsg]

/-- `OpenAIProvider.extractTextContent` (openai.js lines 379-385). -/
def extractTextContent (r : OAIResponse) : String :=
  match r.choices with
  | ch :: _ => ch.message.content.getD ""
  | [] => ""

/-- `OpenAIProvider.extractToolCalls` (openai.js lines 387-408): each raw
call's arguments string is `JSON.parse`d inside a `try`; a call whose
arguments fail to parse is skipped; an empty valid list yields `null`. -/
def extractToolCalls (pjv : String → Option Json) (r : OAIResponse) :
    Option (List ToolCall) :=
  match r.choices with
  | [] => none
  | ch :: _ =>
    match ch.message.tool_calls with
    | none => none
    | some tcs =>
      let valid := tcs.filterMap fun tc =>
        (pjv tc.function.arguments).map fun a =>
          ({ id := tc.id, name := tc.function.name, args := some a } : ToolCall)
      if 0 < valid.length then some valid else none

end OpenAIProvider

namespace DeepSeekProvider

/-- `DeepSeekProvider._convertToolResultForDeepSeek` (deepseek.js lines
41-74): the shared summarization, with no image guard. -/
def convertToolResult (pjv : String → Option Json) (r : ToolResult) : String :=
  toolResultTextSummary pjv r

/-- `DeepSeekProvider.extractToolCalls` (deepseek.js lines 206-227): only
`type === 'function'` calls are considered; arguments are parsed inside a
`try`, parse failures are skipped; an empty valid list yields `null`. -/
def extractToolCalls (pjv : String → Option Json) (r : OAIResponse) :
    Option (List ToolCall) :=
  match r.choices with
  | [] => none
  | ch :: _ =>
    match ch.message.tool_calls with
    | none => none
    | some tcs =>
      let valid := tcs.filterMap fun tc =>
        if tc.type = "function" then
          (pjv tc.function.arguments).map fun a =>
            ({ id := tc.id, name := tc.function.name, args := some a } : ToolCall)
        else none
      if 0 < valid.length then some valid else none

end DeepSeekProvider

namespace HuggingFaceProvider

/-- `HuggingFaceProvider._convertToolResultForPartner` (huggingface.js
lines 80-122): same shape as the OpenAI variant. -/
def convertToolResult (pjv : String → Option Json) (r : ToolResult) : String :=
  if hasImageInToolResult r then imagePlaceholderText
  else toolResultTextSummary pjv r

/-- Whether a parsed argument value is JS `null` (the `.filter(tc =>
tc.args !== null)` test). -/
def argsIsNull (tc : ToolCall) : Bool :=
  match tc.args with
  | some .null => true
  | _ => false

/-- `HuggingFaceProvider.extractToolCalls` (huggingface.js lines 240-250):
`JSON.parse(tc.function.arguments)` is called inside `.map` with **no**
`try`/`catch`, so a parse failure propagates as a thrown exception
(`Except.error`); parsed `null` arguments are filtered out afterwards. -/
def extractToolCalls (pjv : String → Option Json) (r : OAIResponse) :
    Except String (Option (List ToolCall)) :=
  match r.choices with
  | [] => .ok none
  | ch :: _ =>
    match ch.message.tool_calls with
    | none => .ok none
    | some tcs =>
      match tcs.mapM (fun tc =>
          (pjv tc.function.arguments).map fun a =>
            ({ id := tc.id, name := tc.function.name, args := some a } : ToolCall)) with
      | none => .error "SyntaxError: JSON.parse failed on tool call arguments"
      | some l => .ok (some (l.filter fun tc => !argsIsNull tc))

end HuggingFaceProvider

namespace AnthropicProvider

/-- A text or image block inside an Anthropic `tool_result` content or a
converted user message. -/
inductive AnthBlock where
  | text (text : String)
  | image (mediaType : String) (data : String)

/-- The content of a converted tool result: a plain string or a block
array (`AnthropicProvider.convertToolResult` may return either). -/
inductive AnthResultContent where
  | str (s : String)
  | blocks (l : List AnthBlock)

/-- A content block of a formatted Anthropic request message. -/
inductive AnthOutBlock where
  | text (text : String)
  | image (mediaType : String) (data : String)
  | toolUse (id : String) (name : String) (input : Json)
  | toolResult (toolUseId : String) (content : AnthResultContent)

/-- The content of a formatted Anthropic request message. -/
inductive AnthMsgContent where
  | str (s : String)
  | blocks (l : List AnthOutBlock)

/-- A formatted Anthropic request message. -/
structure AnthMsg where
  role : String
  content : AnthMsgContent

/-- `AnthropicProvider.convertToolResult` (anthropic.js lines 194-276); the
`toolName` argument of the source is used only for logging and is omitted.
Case 1 maps a `content` array's text/image/data parts to blocks (stripping
a `/^data:[a-zA-Z0-9\/+]+;base64,/` prefix from image data); case 2 turns
a direct `image` property into an image block plus a stringification of
the remaining properties; case 3 stringifies any other object.  An empty
block list collapses to `""`, a single text block to its text. -/
def convertToolResult (r : ToolResult) : AnthResultContent :=
  match r with
  | .str s => .str s
  | .obj img b64 mt content rest =>
    match content with
    | some blocks =>
      let anthropicContent := blocks.filterMap fun p =>
        match p with
        | .text t => some (AnthBlock.text t)
        | .image d m =>
          if d ≠ "" ∧ m ≠ "" then
            some (AnthBlock.image m (stripIfB64Head isB64Char d))
          else none
        | .data j =>
          match j with
          | .arr elems => some (AnthBlock.text (Json.stringify (.arr elems)))
          | .obj fields => some (AnthBlock.text (Json.stringify (.obj fields)))
          | _ => none
        | .other _ => none
      if anthropicContent.isEmpty then .str ""
      else
        match anthropicContent with
        | [AnthBlock.text t] => .str t
        | l => .blocks l
    | none =>
      let case2 :=
        match img with
        | some f =>
          match f.base64Data, f.mimeType with
          | some d, some m => if m ≠ "" then some (d, m) else none
          | _, _ => none
        | none => none
      match case2 with
      | some (d, m) =>
        let imgBlock := AnthBlock.image m (stripIfB64Head isB64Char d)
        let otherProps := (ToolResult.obj img b64 mt content rest).otherPropsFields
        let anthropicContent :=
          [imgBlock] ++
          (if otherProps.isEmpty then [] else
            [AnthBlock.text (Json.stringify (.obj otherProps))])
        if anthropicContent.isEmpty then .str ""
        else
          match anthropicContent with
          | [AnthBlock.text t] => .str t
          | l => .blocks l
      | none =>
        .str (Json.stringify (ToolResult.obj img b64 mt content rest).toJson)

/-- `AnthropicProvider._convertUserContentForAnthropic` (anthropic.js lines
293-339): text parts pass through, `image` source blocks pass through,
`image_url` parts are parsed as data URLs, `image_mcp` parts (with truthy
media type and data) become image blocks, anything else is skipped. -/
def convertUserContent (c : UserContent) : List AnthOutBlock :=
  match c with
  | .str s => [.text s]
  | .parts l =>
    l.filterMap fun p =>
      match p with
      | .text t => some (AnthOutBlock.text t)
      | .image m d => some (AnthOutBlock.image m d)
      | .imageUrl url =>
        match parseDataUrl url with
        | some (m, d) => if m ≠ "" ∧ d ≠ "" then some (AnthOutBlock.image m d) else none
        | none => none
      | .imageMcp m d =>
        if m ≠ "" ∧ d ≠ "" then some (AnthOutBlock.image m d) else none
      | .other _ => none

/-- Whether a canonical message is a `tool`-role message answering the
given call id (`message.role === 'tool' && message.tool_call_id === id`). -/
def isToolResultFor (id : String) (m : Msg) : Bool :=
  match m with
  | .tool tcid _ _ => tcid == id
  | _ => false

/-- The first pass of `AnthropicProvider.formatConversation` (anthropic.js
lines 57-63): `toolResultsMap[id]` holds the converted content of the
*last* `tool`-role message whose truthy `tool_call_id` equals `id`. -/
def toolResultsLookup (hist : List Msg) (id : String) : Option AnthResultContent :=
  if id = "" then none
  else
    match hist.reverse.find? ( isToolResultFor id) with
    | some (.tool _ _ content) => some (convertToolResult content)
    | _ => none

/-- The second pass of `AnthropicProvider.formatConversation` (anthropic.js
lines 65-144), with `pending` the running `pendingToolResults` list:
user turns flush pending results first; assistant turns gather text and
`tool_use` blocks, pair each call with its mapped result, and flush the
pending results immediately unless a user message follows; any pending
results left at the end are flushed as a final synthetic user turn. -/
def formatConversationGo (lookup : String → Option AnthResultContent) :
    List Msg → List AnthOutBlock → List AnthMsg
  | [], pending =>
    if pending.isEmpty then [] else [⟨"user", .blocks pending⟩]
  | m :: rest, pending =>
    match m with
    | .user content =>
      let flushed : List AnthMsg :=
        if pending.isEmpty then [] else [⟨"user", .blocks pending⟩]
      let processed := convertUserContent content
      let userMsgs : List AnthMsg :=
        if 0 < processed.length then [⟨"user", .blocks processed⟩]
        else
          match content with
          | .str s => [⟨"user", .str s⟩]
          | _ => []
      flushed ++ userMsgs ++ formatConversationGo lookup rest []
    | .assistant content toolCalls =>
      let textBlocks : List AnthOutBlock :=
        if jsTrim content ≠ "" then [.text content] else []
      let tcs := toolCalls.getD []
      let useBlocks : List AnthOutBlock :=
        tcs.map fun tc => .toolUse tc.id tc.name (jsOrEmptyObj tc.args)
      let newResults : List AnthOutBlock :=
        tcs.filterMap fun tc =>
          (lookup tc.id).map fun rc => AnthOutBlock.toolResult tc.id rc
      let assistantContent := textBlocks ++ useBlocks
      let asstMsgs : List AnthMsg :=
        if 0 < assistantContent.length then [⟨"assistant", .blocks assistantContent⟩]
        else []
      let pending2 := pending ++ newResults
      let nextIsUser :=
        match rest with
        | .user _ :: _ => true
        | _ => false
      if 0 < pending2.length ∧ nextIsUser = false then
        asstMsgs ++ [⟨"user", .blocks pending2⟩] ++ formatConversationGo lookup rest []
      else
        asstMsgs ++ formatConversationGo lookup rest pending2
    | .tool _ _ _ => formatConversationGo lookup rest pending
    | .system _ => formatConversationGo lookup rest pending

/-- `AnthropicProvider.formatConversation` (anthropic.js lines 45-148). -/
def formatConversation (hist : List Msg) : List AnthMsg :=
  formatConversationGo (toolResultsLookup hist) hist []

/-- `AnthropicProvider.extractTextContent` (anthropic.js lines 170-178). -/
def extractTextContent (r : AnthResponse) : String :=
  match r.content with
  | none => ""
  | some blocks =>
    String.intercalate "\n"
      (blocks.filterMap fun b =>
        match b with
        | .text t => some t
        | _ => none)

/-- `AnthropicProvider.extractToolCalls` (anthropic.js lines 180-192):
`tool_use` blocks become calls (`input || {}`); an empty list yields
`null`. -/
def extractToolCalls (r : AnthResponse) : Option (List ToolCall) :=
  match r.content with
  | none => none
  | some blocks =>
    let toolCalls := blocks.filterMap fun b =>
      match b with
      | .toolUse id name input =>
        some ({ id := id, name := name, args := some (jsOrEmptyObj input) } : ToolCall)
      | _ => none
    if 0 < toolCalls.length then some toolCalls else none

end AnthropicProvider

namespace GoogleProvider

/-- A part of a Google request turn (`startChat` history entry or
`sendMessage` payload). -/
inductive GPart where
  | text (text : String)
  | inlineData (mimeType : String) (data : String)
  | functionCall (name : String) (args : Json)
  | functionResponse (name : String) (response : Json)

/-- A Google chat turn: `{role, parts}`. -/
structure GTurn where
  role : String
  parts : List GPart

/-- The parsed value of the first `content` text part whose text
`JSON.parse`s (the `break`ing loop of `convertToolResult`). -/
def firstParsedTextValue (pjv : String → Option Json) :
    List ContentBlock → Option Json
  | [] => none
  | .text t :: rest =>
    match pjv t with
    | some j => some j
    | none => firstParsedTextValue pjv rest
  | _ :: rest => firstParsedTextValue pjv rest

/-- `content.find(p => p.type === 'data' && typeof p.data === 'object' &&
p.data !== null)`: the first data part with an array/object payload. -/
def firstObjectDataBlock : List ContentBlock → Option Json
  | [] => none
  | .data j :: rest =>
    match j with
    | .arr es => some (.arr es)
    | .obj fs => some (.obj fs)
    | _ => firstObjectDataBlock rest
  | _ :: rest => firstObjectDataBlock rest

/-- `content.find(p => p.type === 'image' && p.data && p.mimeType)`. -/
def firstTruthyImageBlock : List ContentBlock → Option (String × String)
  | [] => none
  | .image d m :: rest =>
    if d ≠ "" ∧ m ≠ "" then some (d, m) else firstTruthyImageBlock rest
  | _ :: rest => firstTruthyImageBlock rest

/-- `content.find(p => p.type === 'text' && p.text)`. -/
def firstTruthyTextBlock : List ContentBlock → Option String
  | [] => none
  | .text t :: rest => if t ≠ "" then some t else firstTruthyTextBlock rest
  | _ :: rest => firstTruthyTextBlock rest

/-- `GoogleProvider.convertToolResult` (GoogleProvider lines 537-582):
builds the structured `response` object of a `functionResponse` part.  With
a `content` array, the first JSON-parsable text part wins (arrays wrapped
as `{result}`, objects kept, primitives wrapped as `{value}`), else the
first object-valued `data` part, else an `image_captured_summary` for an
image part, else a part-count summary; without a `content` array, a direct
image property is summarized next to the remaining fields, else the object
itself is used; a bare string becomes `{result}`.  A non-object outcome is
replaced by an error object.  (JS arrays as the whole tool result are not
representable in `ToolResult` and are omitted.) -/
def convertToolResult (pjv : String → Option Json) (r : ToolResult)
    (toolName : String) : GPart :=
  let responseData : Option Json :=
    match r with
    | .obj _ _ _ (some blocks) _ =>
      match firstParsedTextValue pjv blocks with
      | some (.arr es) => some (.obj [("result", .arr es)])
      | some (.obj fs) => some (.obj fs)
      | some j => some (.obj [("value", j)])
      | none =>
        match firstObjectDataBlock blocks with
        | some j => some j
        | none =>
          match firstTruthyImageBlock blocks with
          | some (_, m) =>
            some (.obj [("image_captured_summary", .obj
              [("mime_type", .str m),
               ("status", .str "Image data provided separately to the model."),
               ("description", .str
                 (match firstTruthyTextBlock blocks with
                  | some t => jsTake 100 t ++ "..."
                  | none => "Image content."))])])
          | none =>
            if 0 < blocks.length then
              some (.obj [("mcpToolCallResponseContentSummary",
                .str ("Processed " ++ toString blocks.length ++ " parts."))])
            else none
    | .obj img b64 mt none rest =>
      match img with
      | some f =>
        match f.base64Data with
        | some _ =>
          let metaFields :=
            match f.mimeType with
            | some m => [("mimeType", Json.str m)]
            | none => []
          some (.obj ((ToolResult.obj img b64 mt none rest).otherPropsFields ++
            [("image_summary", .obj (metaFields ++
              [("status", Json.str "Image data provided separately to the model.")]))]))
        | none => some ((ToolResult.obj img b64 mt none rest).toJson)
      | none => some ((ToolResult.obj img b64 mt none rest).toJson)
    | .str s => some (.obj [("result", .str s)])
  let finalData : Json :=
    match responseData with
    | some (.arr es) => .arr es
    | some (.obj fs) => .obj fs
    | _ => .obj [("error", .str "Failed to process tool result into valid object.")]
  .functionResponse toolName finalData

/-- `GoogleProvider.formatConversation` (GoogleProvider lines 397-471):
user messages become `user` turns of text/`inlineData` parts (recognizing
OpenAI `image_url`, Anthropic `image` and canonical `image_mcp` parts),
assistant messages become `model` turns of text and `functionCall` parts,
tool messages with truthy name and id become `function` turns carrying the
converted function response; turns with no parts, and system messages, are
dropped. -/
def formatConversation (pjv : String → Option Json) (hist : List Msg) :
    List GTurn :=
  hist.filterMap fun m =>
    match m with
    | .user content =>
      let userParts : List GPart :=
        match content with
        | .str s => [.text s]
        | .parts l =>
          l.filterMap fun p =>
            match p with
            | .text t => some (GPart.text t)
            | .imageUrl url =>
              match parseDataUrl url with
              | some (mt, d) =>
                if mt ≠ "" ∧ d ≠ "" then some (GPart.inlineData mt d) else none
              | none => none
            | .image mt d =>
              if mt ≠ "" ∧ d ≠ "" then some (GPart.inlineData mt d) else none
            | .imageMcp mt d =>
              if mt ≠ "" ∧ d ≠ "" then some (GPart.inlineData mt d) else none
            | .other _ => none
      if 0 < userParts.length then some ⟨"user", userParts⟩ else none
    | .assistant content toolCalls =>
      let modelParts : List GPart :=
        (if jsTrim content ≠ "" then [GPart.text content] else []) ++
        ((toolCalls.getD []).map fun tc =>
          GPart.functionCall tc.name (jsOrEmptyObj tc.args))
      if 0 < modelParts.length then some ⟨"model", modelParts⟩ else none
    | .tool tcid name content =>
      if name ≠ "" ∧ tcid ≠ "" then
        some ⟨"function", [convertToolResult pjv content name]⟩
      else none
    | .system _ => none

/-- `GoogleProvider.extractImageFromToolResult` (GoogleProvider lines
584-617). -/
def extractImageFromToolResult (r : ToolResult) : Option (String × String) :=
  extractImageOpenAIStyle isB64CharBackslash r

/-- Is this the last assistant message whose `tool_calls` include a call of
the given tool (the backward search of `prepareImageMessageParts`)? -/
def isAssistantCallingTool (toolName : String) (m : Msg) : Bool :=
  match m with
  | .assistant _ (some tcs) => tcs.any fun tc => tc.name == toolName
  | _ => false

/-- The index of the last message satisfying `p`. -/
def findLastIdx (p : Msg → Bool) (hist : List Msg) : Option Nat :=
  match hist.reverse.findIdx? p with
  | some j => some (hist.length - 1 - j)
  | none => none

/-- The backward scan (from index `upTo - 1` down to 0) for a user message
with non-blank string content. -/
def findPrevUserString (hist : List Msg) (upTo : Nat) : Option String :=
  (hist.take upTo).reverse.findSome? fun m =>
    match m with
    | .user (.str s) => if jsTrim s ≠ "" then some s else none
    | _ => none

/-- `GoogleProvider.prepareImageMessageParts` (GoogleProvider lines
619-682): an `inlineData` part followed by a text prompt built from the
last user request preceding the assistant turn that invoked the tool (the
source throws on falsy image data; the orchestrator only calls it after a
truthy check, and that guard is embedded at the call site). -/
def prepareImageMessageParts (base64ImageData mimeType toolName : String)
    (fullConversationHistory : List Msg) : List GPart :=
  let imagePartForGemini := GPart.inlineData mimeType base64ImageData
  let defaultText :=
    "The tool '" ++ toolName ++
    "' returned the accompanying image. Please analyze it and respond to the ongoing request."
  let textForImagePrompt :=
    if 2 ≤ fullConversationHistory.length then
      match findLastIdx (isAssistantCallingTool toolName) fullConversationHistory with
      | some idx =>
        if 0 < idx then
          match findPrevUserString fullConversationHistory idx with
          | some found =>
            "The tool '" ++ toolName ++ "' returned an image. Based on your request: \"" ++
            found ++ "\", please use this image to formulate your response."
          | none => defaultText
        else defaultText
      | none => defaultText
    else defaultText
  [imagePartForGemini, .text textForImagePrompt]

/-- `GoogleProvider.extractTextContent` (huggingface.js bundle, GoogleProvider
lines 510-518): concatenates the truthy `text` fields of the first
candidate's parts. -/
def extractTextContent (r : GoogleResponse) : String :=
  match r.response with
  | none => ""
  | some body =>
    match body.candidates with
    | some (c :: _) =>
      match c.content with
      | some cc =>
        match cc.parts with
        | some parts =>
          parts.foldl (fun acc p =>
            match p with
            | .text t => acc ++ t
            | _ => acc) ""
        | none => ""
      | none => ""
    | _ => ""

/-- `GoogleProvider.extractToolCalls` (GoogleProvider lines 520-534):
`functionCall` parts become calls whose id is `name + '_' + Date.now()`
(the clock value is a parameter `now`); an empty list yields `null`. -/
def extractToolCalls (now : Nat) (r : GoogleResponse) : Option (List ToolCall) :=
  match r.response with
  | none => none
  | some body =>
    match body.candidates with
    | some (c :: _) =>
      match c.content with
      | some cc =>
        match cc.parts with
        | some parts =>
          let toolCalls := parts.filterMap fun p =>
            match p with
            | .functionCall name args =>
              some ({ id := name ++ "_" ++ toString now, name := name,
                      args := some (jsOrEmptyObj args) } : ToolCall)
            | _ => none
          if 0 < toolCalls.length then some toolCalls else none
        | none => none
      | none => none
    | _ => none

end GoogleProvider

namespace MCPClient

/-- Which provider API keys the process environment holds (truthy). -/
structure Env where
  anthropicApiKey : Bool
  openaiApiKey : Bool
  geminiApiKey : Bool
  deepseekApiKey : Bool

/-- The Google provider's stateful chat session: the system instruction
baked into the model plus the `startChat` seed history
(`GoogleProvider.initialize`, GoogleProvider lines 269-285). -/
structure GoogleSession where
  systemInstruction : String
  history : List GoogleProvider.GTurn

/-- The active provider instance held by `MCPClient`
(`this.currentLlmProviderInstance`). -/
inductive ProviderInstance where
  | anthropic (model : String)
  | openai (model : String)
  | google (model : String) (session : GoogleSession)
  | deepseek (model : String)

/-- The provider family of an instance. -/
def ProviderInstance.providerName : ProviderInstance → String
  | .anthropic _ => "anthropic"
  | .openai _ => "openai"
  | .google _ _ => "google"
  | .deepseek _ => "deepseek"

/-- The slice of `MCPClient` state the claims govern: the dispatch name
(`this.config.llmProvider`), the active instance, the canonical history,
the system message and the Google display model (`this.geminiModel`). -/
structure ClientState where
  llmProvider : Option String
  activeInstance : Option ProviderInstance
  conversation : List Msg
  systemMessage : String
  geminiModel : Option String

/-- `MCPClient.setLLMProvider` (mcp-client.js lines 195-320): lower-case
the requested name, discard the current instance and display models, then
per provider check the API key (missing key, or an unsupported name, makes
the call return `false` with no instance) and on success construct a fresh
instance — the Google instance re-seeds its chat session from the entire
current canonical history under the current system message.  Model-name
environment defaults are collapsed to the code's final literal default
(no claim concerns model names). -/
def setLLMProvider (pjv : String → Option Json) (env : Env) (st : ClientState)
    (newProvider : Option String) (newModelName : Option String) :
    Bool × ClientState :=
  let name := newProvider.map jsToLower
  let st0 : ClientState := { st with activeInstance := none, geminiModel := none }
  if name = some "anthropic" then
    if env.anthropicApiKey then
      let model := newModelName.getD "claude-3-5-sonnet-latest"
      (true, { st0 with activeInstance := some (.anthropic model),
                        llmProvider := some "anthropic" })
    else (false, st0)
  else if name = some "openai" then
    if env.openaiApiKey then
      let model := newModelName.getD "gpt-4o"
      (true, { st0 with activeInstance := some (.openai model),
                        llmProvider := some "openai" })
    else (false, st0)
  else if name = some "google" then
    if env.geminiApiKey then
      let model := newModelName.getD "gemini-2.5-flash-preview-04-17"
      (true, { st0 with
        activeInstance := some (.google model
          ⟨st.systemMessage, GoogleProvider.formatConversation pjv st.conversation⟩),
        llmProvider := some "google",
        geminiModel := some model })
    else (false, st0)
  else if name = some "deepseek" then
    if env.deepseekApiKey then
      let model := newModelName.getD "deepseek-chat"
      (true, { st0 with activeInstance := some (.deepseek model),
                        llmProvider := some "deepseek" })
    else (false, st0)
  else (false, st0)

/-- Whether the environment and provider name let `setLLMProvider`
succeed (the negation is a configuration error: unsupported name or
missing API key). -/
def providerConfigOk (env : Env) (name : Option String) : Bool :=
  let n := name.map jsToLower
  if n = some "anthropic" then env.anthropicApiKey
  else if n = some "openai" then env.openaiApiKey
  else if n = some "google" then env.geminiApiKey
  else if n = some "deepseek" then env.deepseekApiKey
  else false

/-- The configuration surface relevant to startup. -/
structure Config where
  llmProvider : Option String
  systemMessage : Option String

/-- The `MCPClient` constructor (mcp-client.js lines 80-152): build the
initial state (empty conversation, resolved system message), attempt
`setLLMProvider` for the configured provider, and **throw** when it fails
so that the process refuses to start. -/
def mkClient (pjv : String → Option Json) (env : Env) (config : Config) :
    Except String ClientState :=
  let st : ClientState :=
    { llmProvider := config.llmProvider
      activeInstance := none
      conversation := []
      systemMessage := config.systemMessage.getD
        "You are a helpful AI assistant that has access to various tools through MCP servers. Use these tools when appropriate to help the user."
      geminiModel := none }
  let r := setLLMProvider pjv env st config.llmProvider none
  if r.1 then .ok r.2
  else .error "Failed to initialize the configured LLM provider. Client cannot start."

/-- The lazy re-initialization performed by `processQuery` /
`continueConversation` when no provider instance is live (mcp-client.js
lines 660-666 etc.): re-run `setLLMProvider` for the *current* dispatch
name. -/
def ensureProviderInstance (pjv : String → Option Json) (env : Env)
    (st : ClientState) : ClientState :=
  match st.activeInstance with
  | some _ => st
  | none => (setLLMProvider pjv env st st.llmProvider none).2

/-- The `/setsystem` command handler (mcp-client.js lines 586-611): store
the new (non-blank) system message; when Google is the active provider,
immediately re-run `setLLMProvider('google', currentModel)` so the session
is rebuilt — with the full canonical history — under the new message. -/
def handleSetSystem (pjv : String → Option Json) (env : Env) (st : ClientState)
    (newSystemMessage : String) : ClientState :=
  if newSystemMessage ≠ "" then
    let st1 : ClientState := { st with systemMessage := newSystemMessage }
    if st1.llmProvider = some "google" then
      (setLLMProvider pjv env st1 (some "google")
        (some (st1.geminiModel.getD "gemini-2.5-flash-preview-04-17"))).2
    else st1
  else st

end MCPClient

/-- An observable event of the orchestrator's continuation flow: a request
sent to the active back-end, a message appended to canonical history, the
entry into the nested tool-invocation loop (left unexpanded: the claims
quantify over acknowledgement responses without further tool calls), or a
thrown error. -/
inductive TraceEvent where
  | sendOpenAI (msgs : List OpenAIProvider.OAIOutMsg)
  | sendGoogle (parts : List GoogleProvider.GPart)
  | appendMsg (m : Msg)
  | enterToolLoop (calls : List ToolCall)
  | errorThrown (msg : String)

/-- The non-recursive core of `MCPClient.handleLLMResponse` (mcp-client.js
lines 772-871): append the assistant message built from the extracted text
and tool calls; a non-empty tool-call list enters the nested tool loop
(recorded as an opaque event). -/
def handleLLMResponseCore (textContent : String)
    (toolCalls : Option (List ToolCall)) (conv : List Msg) :
    List Msg × List TraceEvent :=
  let asst := Msg.assistant textContent toolCalls
  let conv' := conv ++ [asst]
  match toolCalls with
  | some cs =>
    if 0 < cs.length then (conv', [.appendMsg asst, .enterToolLoop cs])
    else (conv', [.appendMsg asst])
  | none => (conv', [.appendMsg asst])

/-- `handleLLMResponse` under the OpenAI provider. -/
def handleLLMResponseOpenAI (pjv : String → Option Json) (resp : OAIResponse)
    (conv : List Msg) : List Msg × List TraceEvent :=
  handleLLMResponseCore (OpenAIProvider.extractTextContent resp)
    (OpenAIProvider.extractToolCalls pjv resp) conv

/-- `handleLLMResponse` under the Google provider. -/
def handleLLMResponseGoogle (now : Nat) (resp : GoogleResponse)
    (conv : List Msg) : List Msg × List TraceEvent :=
  handleLLMResponseCore (GoogleProvider.extractTextContent resp)
    (GoogleProvider.extractToolCalls now resp) conv

/-- Truthiness of `response.choices[0].message.tool_calls` (mcp-client.js
line 1006; an empty array is truthy). -/
def respHasToolCallsOpenAI (r : OAIResponse) : Bool :=
  match r.choices with
  | ch :: _ => ch.message.tool_calls.isSome
  | [] => false

namespace MCPClient

/-- The backward search for `originalUserQuery` (mcp-client.js lines
1015-1027): the user message two slots before the tool message, when its
content is a string or its first part has string `text`; else the default
prompt.  The `userMessageIndex >= 0` guard corresponds to the
`2 ≤ lastToolMessageIndex` test. -/
def openaiOriginalUserQuery (conv : List Msg) (lastToolMessageIndex : Nat) :
    String :=
  if 2 ≤ lastToolMessageIndex then
    match conv[lastToolMessageIndex - 2]? with
    | some (Msg.user (.str s)) => s
    | some (Msg.user (.parts (p0 :: _))) =>
      match p0 with
      | .text t => t
      | _ => "Describe the image."
    | _ => "Describe the image."
  else "Describe the image."

/-- The synthetic image prompt of mcp-client.js line 1030. -/
def openaiImagePrompt (toolName q : String) : String :=
  "The tool '" ++ toolName ++ "' returned an image. Based on your previous request: \"" ++
  jsTruncate 200 q ++ "\", please analyze this image."

/-- `MCPClient.continueConversation`, OpenAI path (mcp-client.js lines
893-904, 1000-1002 and the two-step image handling 1004-1048): trim,
format and send the history ending in the tool-result message; process the
acknowledgement response; then, when the tool result carried an image,
append the synthetic image-bearing user turn to canonical history, trim,
format and send again, and process that response.  `oracle` supplies the
back-end responses in send order starting at index `k`. -/
def continueConversationOpenAI (pjv : String → Option Json)
    (systemMessage imageAnalysisPromptSuffix : String) (maxLen : Option Int)
    (oracle : Nat → OAIResponse) (k : Nat) (conv : List Msg) :
    List Msg × List TraceEvent :=
  let conv1 := (trimConversationHistory maxLen conv).1
  let msgs1 := OpenAIProvider.formatConversation pjv systemMessage
    imageAnalysisPromptSuffix conv1
  let resp1 := oracle k
  let step1 := handleLLMResponseOpenAI pjv resp1 conv1
  let conv2 := step1.1
  let evs := [TraceEvent.sendOpenAI msgs1] ++ step1.2
  let lastToolMessageIndex :=
    conv2.length - (if respHasToolCallsOpenAI resp1 then 3 else 2)
  match conv2[lastToolMessageIndex]? with
  | some (Msg.tool _ name content) =>
    match OpenAIProvider.extractImageFromToolResult content with
    | some (d, m) =>
      if d ≠ "" then
        let q := openaiOriginalUserQuery conv2 lastToolMessageIndex
        let toolName := if name ≠ "" then name else "the tool"
        let imagePrompt := openaiImagePrompt toolName q
        let userImgMsg := Msg.user
          (.parts (OpenAIProvider.prepareImageMessageContent d m imagePrompt))
        let conv3 := conv2 ++ [userImgMsg]
        let conv4 := (trimConversationHistory maxLen conv3).1
        let msgs2 := OpenAIProvider.formatConversation pjv systemMessage
          imageAnalysisPromptSuffix conv4
        let resp2 := oracle (k + 1)
        let step2 := handleLLMResponseOpenAI pjv resp2 conv4
        (step2.1, evs ++ [.appendMsg userImgMsg, .sendOpenAI msgs2] ++ step2.2)
      else (conv2, evs)
    | none => (conv2, evs)
  | _ => (conv2, evs)

/-- `MCPClient.continueConversation`, Google path (mcp-client.js lines
917-996): the last message must be the tool-result message; send its
converted `functionResponse` part, process the acknowledgement, and — when
the tool result carried an image — send the prepared image parts (built
against the post-acknowledgement canonical history) and process that
response.  Nothing is appended to canonical history for the image turn:
the stateful session holds it server-side. -/
def continueConversationGoogle (pjv : String → Option Json) (now : Nat)
    (oracle : Nat → GoogleResponse) (k : Nat) (conv : List Msg) :
    List Msg × List TraceEvent :=
  match conv.getLast? with
  | some (Msg.tool _ toolName toolCallResult) =>
    let functionResponsePart := GoogleProvider.convertToolResult pjv
      toolCallResult toolName
    let resp1 := oracle k
    let step1 := handleLLMResponseGoogle now resp1 conv
    let conv2 := step1.1
    let evs := [TraceEvent.sendGoogle [functionResponsePart]] ++ step1.2
    match GoogleProvider.extractImageFromToolResult toolCallResult with
    | some (d, m) =>
      if d ≠ "" then
        let imageMessageParts := GoogleProvider.prepareImageMessageParts d m
          toolName conv2
        let resp2 := oracle (k + 1)
        let step2 := handleLLMResponseGoogle now resp2 conv2
        (step2.1, evs ++ [.sendGoogle imageMessageParts] ++ step2.2)
      else (conv2, evs)
    | none => (conv2, evs)
  | _ =>
    (conv, [.errorThrown
      "Programming error: Expected last message to be a tool response for Google continuation."])

end MCPClient

/-- The decision policy of spec §4.2 `convertToolResult`, written from the
claim's words, for comparison with the three string-variant adapters:
(1) a plain string passes through; (2) with a content-block list, the
first text block that parses as structured data, else the serialization of
the first data block, else the first text block; (3) otherwise the
serialization of the entire raw result. -/
def claimedStringConversion (pjv : String → Option Json) (r : ToolResult) : String :=
  match r with
  | .str s => s
  | .obj _ _ _ (some blocks) _ =>
    match findFirstParsableText pjv blocks with
    | some t => t
    | none =>
      match firstDataBlock blocks with
      | some j => j.stringify
      | none =>
        match firstTextBlock blocks with
        | some t => t
        | none => (ToolResult.toJson r).stringify
  | .obj _ _ _ none _ => (ToolResult.toJson r).stringify

end UMC

namespace UMC

/-! ## Theorems -/

/-- Claim C5: for every history and configured positive bound, trimming a
history longer than the bound removes exactly `length - maxLength` messages
from the front — leaving exactly the last `maxLength` messages, order and
identities preserved, and reporting `length - maxLength` as the dropped
count — while trimming a history at or under the bound is a no-op. -/
theorem trim_bounds_history (m : Int) (hm : 0 < m) (conv : List Msg) :
    ((conv.length : Int) > m →
      MCPClient.trimConversationHistory (some m) conv =
        (conv.drop (conv.length - m.toNat), conv.length - m.toNat) ∧
      (MCPClient.trimConversationHistory (some m) conv).1.length = m.toNat ∧
      conv = conv.take (conv.length - m.toNat) ++
        (MCPClient.trimConversationHistory (some m) conv).1) ∧
    ((conv.length : Int) ≤ m →
      MCPClient.trimConversationHistory (some m) conv = (conv, 0)) := by
  constructor
  · intro hgt
    have hm0 : m ≠ 0 := by omega
    have hnat : ((conv.length : Int) - m).toNat = conv.length - m.toNat := by
      omega
    simp only [MCPClient.trimConversationHistory, hnat]
    rw [if_pos ⟨hm0, hgt⟩]
    refine ⟨rfl, ?_, ?_⟩
    · simp only [List.length_drop]
      omega
    · exact (List.take_append_drop _ conv).symm
  · intro hle
    simp only [MCPClient.trimConversationHistory]
    rw [if_neg]
    intro ⟨_, h⟩
    omega

/-- Witness for `trim_bounds_history` at bound 3 and a 5-message history:
exactly the last 3 messages survive in order, 2 are reported dropped. -/
theorem trim_bounds_history_witness :
    MCPClient.trimConversationHistory (some 3)
      [Msg.system "a", Msg.system "b", Msg.system "c", Msg.system "d",
       Msg.system "e"] =
      ([Msg.system "c", Msg.system "d", Msg.system "e"], 2) ∧
    MCPClient.trimConversationHistory (some 3)
      [Msg.system "a", Msg.system "b"] = ([Msg.system "a", Msg.system "b"], 0) := by
  have h1 := (trim_bounds_history 3 (by decide)
    [Msg.system "a", Msg.system "b", Msg.system "c", Msg.system "d",
     Msg.system "e"]).1 (by decide)
  have h2 := (trim_bounds_history 3 (by decide)
    [Msg.system "a", Msg.system "b"]).2 (by decide)
  exact ⟨h1.1, h2⟩

/-- Claim C10: when neither the config value nor the environment value
yields a positive parsed integer (absent, non-numeric, zero, or negative),
the stored bound is `null` and trimming is the identity on histories of
every length. -/
theorem no_bound_means_no_trim (cfg env : MCPClient.ConfigVal)
    (hc : ∀ n, MCPClient.parseIntJs cfg = some n → n ≤ 0)
    (he : ∀ n, MCPClient.parseIntJs env = some n → n ≤ 0) :
    MCPClient.computeMaxHistoryLength cfg env = none ∧
    ∀ conv : List Msg,
      MCPClient.trimConversationHistory
        (MCPClient.computeMaxHistoryLength cfg env) conv = (conv, 0) := by
  have hposc : MCPClient.positiveOrNone (MCPClient.parseIntJs cfg) = none := by
    cases hcv : MCPClient.parseIntJs cfg with
    | none => rfl
    | some n =>
      have := hc n hcv
      simp only [MCPClient.positiveOrNone]
      rw [if_neg (by omega)]
  have hpose : MCPClient.positiveOrNone (MCPClient.parseIntJs env) = none := by
    cases hev : MCPClient.parseIntJs env with
    | none => rfl
    | some m =>
      have := he m hev
      simp only [MCPClient.positiveOrNone]
      rw [if_neg (by omega)]
  have hnone : MCPClient.computeMaxHistoryLength cfg env = none := by
    simp only [MCPClient.computeMaxHistoryLength, hposc, hpose]
  refine ⟨hnone, fun conv => ?_⟩
  rw [hnone]
  rfl

/-- Witness for `no_bound_means_no_trim`: a non-numeric config value and a
negative environment value yield no bound, and a 2-message history passes
through trimming untouched. -/
theorem no_bound_means_no_trim_witness :
    MCPClient.computeMaxHistoryLength (.nonNumeric "abc") (.num (-4)) = none ∧
    MCPClient.trimConversationHistory
      (MCPClient.computeMaxHistoryLength (.nonNumeric "abc") (.num (-4)))
      [Msg.system "a", Msg.system "b"] =
      ([Msg.system "a", Msg.system "b"], 0) := by
  have h := no_bound_means_no_trim (.nonNumeric "abc") (.num (-4))
    (by intro n h; cases h) (by intro n h; simp [MCPClient.parseIntJs] at h; omega)
  exact ⟨h.1, h.2 _⟩

/-- The shared summarization routine coincides with the spec's decision
policy as written in the claim. -/
theorem toolResultTextSummary_eq_claimed (pjv : String → Option Json)
    (r : ToolResult) :
    toolResultTextSummary pjv r = claimedStringConversion pjv r := by
  cases r with
  | str s => rfl
  | obj img b64 mt content rest =>
    cases content with
    | none => rfl
    | some blocks => rfl

/-- Claim C6: for every tool result carrying no image, all three
string-variant adapters (`OpenAI`, `DeepSeek`, `HuggingFace`) convert the
result exactly per the claimed policy — a plain string passes through
unchanged; with a content-block list the first JSON-parsable text block is
returned verbatim, else the serialization of the first data block, else
the first text block; otherwise the serialization of the entire raw
result.  The conversions are total functions, so they never fail. -/
theorem string_variant_convert_follows_policy (pjv : String → Option Json)
    (r : ToolResult) (h : hasImageInToolResult r = false) :
    OpenAIProvider.convertToolResult pjv r = claimedStringConversion pjv r ∧
    HuggingFaceProvider.convertToolResult pjv r = claimedStringConversion pjv r ∧
    DeepSeekProvider.convertToolResult pjv r = claimedStringConversion pjv r := by
  unfold OpenAIProvider.convertToolResult HuggingFaceProvider.convertToolResult
    DeepSeekProvider.convertToolResult
  rw [h]
  simp only [Bool.false_eq_true, if_false]
  exact ⟨toolResultTextSummary_eq_claimed pjv r,
         toolResultTextSummary_eq_claimed pjv r,
         toolResultTextSummary_eq_claimed pjv r⟩

/-- Witness for `string_variant_convert_follows_policy` at a concrete
imageless tool result with one non-JSON text block and one data block. -/
theorem string_variant_convert_follows_policy_witness :
    hasImageInToolResult
      (ToolResult.obj none none none
        (some [ContentBlock.text "plain", ContentBlock.data (Json.num 7)]) []) = false ∧
    (OpenAIProvider.convertToolResult (fun _ => none)
        (ToolResult.obj none none none
          (some [ContentBlock.text "plain", ContentBlock.data (Json.num 7)]) []) =
      claimedStringConversion (fun _ => none)
        (ToolResult.obj none none none
          (some [ContentBlock.text "plain", ContentBlock.data (Json.num 7)]) []) ∧
     HuggingFaceProvider.convertToolResult (fun _ => none)
        (ToolResult.obj none none none
          (some [ContentBlock.text "plain", ContentBlock.data (Json.num 7)]) []) =
      claimedStringConversion (fun _ => none)
        (ToolResult.obj none none none
          (some [ContentBlock.text "plain", ContentBlock.data (Json.num 7)]) []) ∧
     DeepSeekProvider.convertToolResult (fun _ => none)
        (ToolResult.obj none none none
          (some [ContentBlock.text "plain", ContentBlock.data (Json.num 7)]) []) =
      claimedStringConversion (fun _ => none)
        (ToolResult.obj none none none
          (some [ContentBlock.text "plain", ContentBlock.data (Json.num 7)]) [])) :=
  ⟨rfl, string_variant_convert_follows_policy (fun _ => none) _ rfl⟩

namespace AnthropicProvider

end AnthropicProvider

/-- Dropping a literal prefix from itself plus a remainder. -/
theorem dropLiteral_append (l rest : List Char) :
    dropLiteral l (l ++ rest) = some rest := by
  induction l with
  | nil => rfl
  | cons c cs ih => simp [dropLiteral, ih]

/-- `startsWith` holds on a literal prefix plus a remainder. -/
theorem startsWithChars_append (l rest : List Char) :
    startsWithChars l (l ++ rest) = true := by
  induction l with
  | nil => rfl
  | cons c cs ih => simp [startsWithChars, ih]

/-- Scanning for the first comma skips a comma-free prefix. -/
theorem afterFirstComma_append_of_no_comma (l1 l2 : List Char)
    (h : ∀ c ∈ l1, c ≠ ',') :
    afterFirstComma (l1 ++ l2) = afterFirstComma l2 := by
  induction l1 with
  | nil => rfl
  | cons c cs ih =>
    simp only [List.cons_append, afterFirstComma]
    rw [if_neg (h c (by simp))]
    exact ih fun x hx => h x (by simp [hx])

/-- The first comma of `";base64," ++ rest` sits at the end of the
literal. -/
theorem afterFirstComma_semBase64 (rest : List Char) :
    afterFirstComma (semBase64Chars ++ rest) = some rest := by
  simp [semBase64Chars, afterFirstComma]

/-- The characters of an assembled data URI. -/
theorem mkDataUri_data (m p : String) :
    (mkDataUri m p).data =
      dataColonChars ++ (m.data ++ (semBase64Chars ++ p.data)) := by
  show ("data:" ++ m ++ ";base64," ++ p).data = _
  simp only [String.data_append, List.append_assoc]
  rfl

/-- Stripping the comma-delimited data-URI prefix recovers the payload of
an assembled data URI whose media type is comma-free. -/
theorem stripDataUriByComma_mkDataUri (m p : String)
    (h : ∀ c ∈ m.data, c ≠ ',') :
    stripDataUriByComma (mkDataUri m p) = p := by
  have hstart : startsWithChars dataColonChars (mkDataUri m p).data = true := by
    rw [mkDataUri_data]
    exact startsWithChars_append _ _
  have hcomma : afterFirstComma (mkDataUri m p).data = some p.data := by
    rw [mkDataUri_data,
      afterFirstComma_append_of_no_comma dataColonChars _ (by decide),
      afterFirstComma_append_of_no_comma m.data _ h,
      afterFirstComma_semBase64]
  simp [stripDataUriByComma, substringAfterComma, hstart, hcomma]

/-- Data without a `data:` head passes the comma strip unchanged. -/
theorem stripDataUriByComma_raw (p : String)
    (h : startsWithChars dataColonChars p.data = false) :
    stripDataUriByComma p = p := by
  simp [stripDataUriByComma, h]

/-- `_parseDataUrl` decodes an assembled data URI back to exactly its
media type and payload, when the media type is a non-empty run of
mime-class characters. -/
theorem parseDataUrl_mkDataUri (m p : String) (hm : m ≠ "")
    (hmime : ∀ c ∈ m.data, isMimeChar c = true) :
    parseDataUrl (mkDataUri m p) = some (m, p) := by
  have hdata : m.data ≠ [] := by
    intro hd
    apply hm
    cases m with
    | mk d => cases hd; rfl
  unfold parseDataUrl parseDataUrlChars
  rw [mkDataUri_data, dropLiteral_append]
  have htake : (m.data ++ (semBase64Chars ++ p.data)).takeWhile isMimeChar = m.data := by
    rw [List.takeWhile_append_of_pos hmime]
    have : (semBase64Chars ++ p.data).takeWhile isMimeChar = [] := by
      simp [semBase64Chars, List.takeWhile_cons,
        show isMimeChar ';' = false from by decide]
    rw [this, List.append_nil]
  have hdrop : (m.data ++ (semBase64Chars ++ p.data)).dropWhile isMimeChar =
      semBase64Chars ++ p.data := by
    rw [List.dropWhile_append_of_pos hmime]
    cases hsem : semBase64Chars ++ p.data with
    | nil => simp [semBase64Chars] at hsem
    | cons c rest =>
      have hc : c = ';' := by
        simp [semBase64Chars] at hsem
        exact hsem.1.symm
      rw [List.dropWhile_cons]
      subst hc
      simp [show isMimeChar ';' = false from by decide]
  simp only [htake, hdrop]
  rw [if_neg (by simp [hdata]), dropLiteral_append]

/-- Claim C3: an image carried in a tool result is canonicalized by
`_extractImageFromMcpToolResult` to its raw base64 payload (any data-URI
prefix stripped) plus media type, and re-encoding the canonical
`image_mcp` part through a different adapter — the Anthropic image source
block or the OpenAI `image_url` data URI — carries the byte-identical
base64 payload and the identical media type; the OpenAI data URI decodes
back to exactly the same pair via `_parseDataUrl`. -/
theorem image_canonical_roundtrip (m p : String)
    (hm : m ≠ "") (hmime : ∀ c ∈ m.data, isMimeChar c = true) (hp : p ≠ "")
    (hpre : startsWithChars dataColonChars p.data = false) :
    MCPClient.extractImageFromMcpToolResult
      (.obj none none none (some [.image p m]) []) = some (p, m) ∧
    MCPClient.extractImageFromMcpToolResult
      (.obj none none none (some [.image (mkDataUri m p) m]) []) = some (p, m) ∧
    AnthropicProvider.convertUserContent (.parts [.imageMcp m p]) =
      [AnthropicProvider.AnthOutBlock.image m p] ∧
    OpenAIProvider.processUserParts [.imageMcp m p] =
      [OpenAIProvider.OAIPart.imageUrl (mkDataUri m p)] ∧
    parseDataUrl (mkDataUri m p) = some (m, p) := by
  have hnocomma : ∀ c ∈ m.data, c ≠ ',' := by
    intro c hc he
    have := hmime c hc
    subst he
    simp [isMimeChar] at this
  refine ⟨?_, ?_, ?_, ?_, parseDataUrl_mkDataUri m p hm hmime⟩
  · simp [MCPClient.extractImageFromMcpToolResult, List.find?,
      stripDataUriByComma_raw p hpre]
  · simp [MCPClient.extractImageFromMcpToolResult, List.find?,
      stripDataUriByComma_mkDataUri m p hnocomma]
  · simp [AnthropicProvider.convertUserContent, hm, hp]
  · simp [OpenAIProvider.processUserParts, hm, hp]

/-- Witness for `image_canonical_roundtrip` at a concrete PNG payload. -/
theorem image_canonical_roundtrip_witness :
    ("image/png" : String) ≠ "" ∧
    (∀ c ∈ ("image/png" : String).data, isMimeChar c = true) ∧
    ("iVBORw0KGgo" : String) ≠ "" ∧
    startsWithChars dataColonChars ("iVBORw0KGgo" : String).data = false ∧
    (MCPClient.extractImageFromMcpToolResult
      (.obj none none none (some [.image "iVBORw0KGgo" "image/png"]) []) =
        some ("iVBORw0KGgo", "image/png") ∧
     MCPClient.extractImageFromMcpToolResult
      (.obj none none none
        (some [.image (mkDataUri "image/png" "iVBORw0KGgo") "image/png"]) []) =
        some ("iVBORw0KGgo", "image/png") ∧
     AnthropicProvider.convertUserContent
        (.parts [.imageMcp "image/png" "iVBORw0KGgo"]) =
      [AnthropicProvider.AnthOutBlock.image "image/png" "iVBORw0KGgo"] ∧
     OpenAIProvider.processUserParts [.imageMcp "image/png" "iVBORw0KGgo"] =
      [OpenAIProvider.OAIPart.imageUrl (mkDataUri "image/png" "iVBORw0KGgo")] ∧
     parseDataUrl (mkDataUri "image/png" "iVBORw0KGgo") =
        some ("image/png", "iVBORw0KGgo")) :=
  ⟨by decide, by decide, by decide, by decide,
   image_canonical_roundtrip "image/png" "iVBORw0KGgo"
     (by decide) (by decide) (by decide) (by decide)⟩

theorem ite_length_pos_none_or_nonempty (l : List ToolCall) :
    (if 0 < l.length then some l else none) = none ∨
    ∃ l', (if 0 < l.length then some l else none) = some l' ∧ l' ≠ [] := by
  by_cases h : 0 < l.length
  · right
    refine ⟨l, by rw [if_pos h], ?_⟩
    intro he
    subst he
    simp at h
  · left
    exact if_neg h

/-- Counterexample to claim C9 as stated over *every* adapter: the
Hugging Face adapter's `extractToolCalls` (huggingface.js lines 240-250),
given a response whose `tool_calls` field is an empty array (truthy in
JS), maps and filters it and returns the **empty list**, not `null`. -/
theorem hf_extract_returns_empty_list :
    HuggingFaceProvider.extractToolCalls (fun _ => none)
      ⟨[⟨⟨none, some []⟩⟩]⟩ = .ok (some []) := rfl

/-- Claim C9 (amended to the four adapters its sources cite): for every
raw response, each of the OpenAI, Anthropic, DeepSeek and Google adapters'
`extractToolCalls` returns `null` or a non-empty list — never an empty
list (in particular, when every argument string fails to parse the result
is `null`). -/
theorem extract_tool_calls_null_or_nonempty :
    (∀ (pjv : String → Option Json) (r : OAIResponse),
      OpenAIProvider.extractToolCalls pjv r = none ∨
      ∃ l, OpenAIProvider.extractToolCalls pjv r = some l ∧ l ≠ []) ∧
    (∀ r : AnthResponse,
      AnthropicProvider.extractToolCalls r = none ∨
      ∃ l, AnthropicProvider.extractToolCalls r = some l ∧ l ≠ []) ∧
    (∀ (pjv : String → Option Json) (r : OAIResponse),
      DeepSeekProvider.extractToolCalls pjv r = none ∨
      ∃ l, DeepSeekProvider.extractToolCalls pjv r = some l ∧ l ≠ []) ∧
    (∀ (now : Nat) (r : GoogleResponse),
      GoogleProvider.extractToolCalls now r = none ∨
      ∃ l, GoogleProvider.extractToolCalls now r = some l ∧ l ≠ []) := by
  refine ⟨?_, ?_, ?_, ?_⟩
  · intro pjv r
    rcases r with ⟨choices⟩
    cases choices with
    | nil => left; rfl
    | cons ch rest =>
      rcases ch with ⟨⟨content, tcs⟩⟩
      cases tcs with
      | none => left; rfl
      | some tcs => exact ite_length_pos_none_or_nonempty _
  · intro r
    rcases r with ⟨content⟩
    cases content with
    | none => left; rfl
    | some blocks => exact ite_length_pos_none_or_nonempty _
  · intro pjv r
    rcases r with ⟨choices⟩
    cases choices with
    | nil => left; rfl
    | cons ch rest =>
      rcases ch with ⟨⟨content, tcs⟩⟩
      cases tcs with
      | none => left; rfl
      | some tcs => exact ite_length_pos_none_or_nonempty _
  · intro now r
    rcases r with ⟨body⟩
    cases body with
    | none => left; rfl
    | some body =>
      rcases body with ⟨cands⟩
      cases cands with
      | none => left; rfl
      | some cands =>
        cases cands with
        | nil => left; rfl
        | cons c rest =>
          rcases c with ⟨cc⟩
          cases cc with
          | none => left; rfl
          | some cc =>
            rcases cc with ⟨parts⟩
            cases parts with
            | none => left; rfl
            | some parts => exact ite_length_pos_none_or_nonempty _

/-- Claim C2: whenever the Google provider's session is (re-)initialized —
at a provider switch to Google, and when `/setsystem` changes the system
message while Google is active — the new chat session is seeded with the
translation of the *entire* prior canonical conversation history into
Google's user/model/function turn format, so no conversational context
from before the change is lost. -/
theorem google_session_seeded_with_entire_history (pjv : String → Option Json)
    (env : MCPClient.Env) (st : MCPClient.ClientState) (newSys : String)
    (m : Option String) (hkey : env.geminiApiKey = true) :
    (∃ mdl, (MCPClient.setLLMProvider pjv env st (some "google") m).2.activeInstance =
       some (.google mdl
         ⟨st.systemMessage, GoogleProvider.formatConversation pjv st.conversation⟩)) ∧
    (st.llmProvider = some "google" → newSys ≠ "" →
      (MCPClient.handleSetSystem pjv env st newSys).conversation = st.conversation ∧
      ∃ mdl, (MCPClient.handleSetSystem pjv env st newSys).activeInstance =
        some (.google mdl
          ⟨newSys, GoogleProvider.formatConversation pjv st.conversation⟩)) := by
  constructor
  · refine ⟨m.getD "gemini-2.5-flash-preview-04-17", ?_⟩
    simp [MCPClient.setLLMProvider, jsToLower, hkey]
  · intro hg hns
    constructor
    · simp [MCPClient.handleSetSystem, hns, hg, MCPClient.setLLMProvider,
        jsToLower, hkey]
    · refine ⟨st.geminiModel.getD "gemini-2.5-flash-preview-04-17", ?_⟩
      simp [MCPClient.handleSetSystem, hns, hg, MCPClient.setLLMProvider,
        jsToLower, hkey]

/-- Witness for `google_session_seeded_with_entire_history` at a concrete
one-message history: both the provider switch and the `/setsystem` rebuild
seed the session with the whole translated history. -/
theorem google_session_seeded_with_entire_history_witness :
    (⟨false, false, true, false⟩ : MCPClient.Env).geminiApiKey = true ∧
    ((∃ mdl, (MCPClient.setLLMProvider (fun _ => none) ⟨false, false, true, false⟩
        ⟨some "google", none, [Msg.user (.str "hi")], "old", none⟩
        (some "google") none).2.activeInstance =
       some (.google mdl
         ⟨"old", GoogleProvider.formatConversation (fun _ => none)
            [Msg.user (.str "hi")]⟩)) ∧
     ((some "google" : Option String) = some "google" → ("new" : String) ≠ "" →
      (MCPClient.handleSetSystem (fun _ => none) ⟨false, false, true, false⟩
        ⟨some "google", none, [Msg.user (.str "hi")], "old", none⟩ "new").conversation =
        [Msg.user (.str "hi")] ∧
      ∃ mdl, (MCPClient.handleSetSystem (fun _ => none) ⟨false, false, true, false⟩
        ⟨some "google", none, [Msg.user (.str "hi")], "old", none⟩ "new").activeInstance =
        some (.google mdl
          ⟨"new", GoogleProvider.formatConversation (fun _ => none)
            [Msg.user (.str "hi")]⟩))) :=
  ⟨rfl, google_session_seeded_with_entire_history (fun _ => none)
    ⟨false, false, true, false⟩
    ⟨some "google", none, [Msg.user (.str "hi")], "old", none⟩ "new" none rfl⟩

/-- A configuration error (unsupported name or missing key) makes
`setLLMProvider` fail and leave only the cleared-instance state. -/
theorem setLLMProvider_config_error (pjv : String → Option Json)
    (env : MCPClient.Env) (s : MCPClient.ClientState) (nm mdl : Option String)
    (h : MCPClient.providerConfigOk env nm = false) :
    MCPClient.setLLMProvider pjv env s nm mdl =
      (false, { s with activeInstance := none, geminiModel := none }) := by
  unfold MCPClient.providerConfigOk at h
  unfold MCPClient.setLLMProvider
  by_cases h1 : nm.map jsToLower = some "anthropic"
  · simp only [h1, if_pos] at h ⊢
    simp [h] at h ⊢
  · simp only [h1, if_neg, if_false] at h ⊢
    by_cases h2 : nm.map jsToLower = some "openai"
    · simp only [h2, if_pos] at h ⊢
      simp [h1, h2, h]
    · by_cases h3 : nm.map jsToLower = some "google"
      · simp only [h3] at h ⊢
        simp [h1, h2, h3, h] at h ⊢
        simp [h]
      · by_cases h4 : nm.map jsToLower = some "deepseek"
        · simp [h1, h2, h3, h4] at h ⊢
          simp [h]
        · simp [h1, h2, h3, h4]

/-- Claim C8: a configuration error (missing API key or unsupported
provider name) for the initially configured provider is fatal at startup —
the constructor throws; the same error during a runtime switch is
non-fatal — `setLLMProvider` returns `false`, the dispatch provider name
and the canonical history are untouched, and the next lazy
re-initialization restores an instance of the previously active
provider. -/
theorem config_error_fatal_at_startup_nonfatal_at_switch
    (pjv : String → Option Json) (env : MCPClient.Env) (cfg : MCPClient.Config)
    (st : MCPClient.ClientState) (tgt mdl : Option String)
    (hcfg : MCPClient.providerConfigOk env cfg.llmProvider = false)
    (htgt : MCPClient.providerConfigOk env tgt = false)
    (hprev : MCPClient.providerConfigOk env st.llmProvider = true)
    (hcanon : st.llmProvider = some "anthropic" ∨ st.llmProvider = some "openai" ∨
              st.llmProvider = some "google" ∨ st.llmProvider = some "deepseek") :
    (∃ e, MCPClient.mkClient pjv env cfg = .error e) ∧
    (MCPClient.setLLMProvider pjv env st tgt mdl).1 = false ∧
    (MCPClient.setLLMProvider pjv env st tgt mdl).2.llmProvider = st.llmProvider ∧
    (MCPClient.setLLMProvider pjv env st tgt mdl).2.conversation = st.conversation ∧
    (∃ inst, (MCPClient.ensureProviderInstance pjv env
        (MCPClient.setLLMProvider pjv env st tgt mdl).2).activeInstance = some inst ∧
      some inst.providerName = st.llmProvider) := by
  have hfail := setLLMProvider_config_error pjv env st tgt mdl htgt
  have hfail0 := setLLMProvider_config_error pjv env
    { llmProvider := cfg.llmProvider, activeInstance := none, conversation := [],
      systemMessage := cfg.systemMessage.getD
        "You are a helpful AI assistant that has access to various tools through MCP servers. Use these tools when appropriate to help the user.",
      geminiModel := none } cfg.llmProvider none hcfg
  refine ⟨?_, ?_, ?_, ?_, ?_⟩
  · refine ⟨"Failed to initialize the configured LLM provider. Client cannot start.", ?_⟩
    simp [MCPClient.mkClient, hfail0]
  · rw [hfail]
  · rw [hfail]
  · rw [hfail]
  · rw [hfail]
    rcases hcanon with hc | hc | hc | hc
    · rw [hc] at hprev
      simp [MCPClient.providerConfigOk, jsToLower] at hprev
      refine ⟨.anthropic "claude-3-5-sonnet-latest", ?_,
        by simp [hc, MCPClient.ProviderInstance.providerName]⟩
      simp [MCPClient.ensureProviderInstance, MCPClient.setLLMProvider,
        jsToLower, hprev, hc]
    · rw [hc] at hprev
      simp [MCPClient.providerConfigOk, jsToLower] at hprev
      refine ⟨.openai "gpt-4o", ?_,
        by simp [hc, MCPClient.ProviderInstance.providerName]⟩
      simp [MCPClient.ensureProviderInstance, MCPClient.setLLMProvider,
        jsToLower, hprev, hc]
    · rw [hc] at hprev
      simp [MCPClient.providerConfigOk, jsToLower] at hprev
      refine ⟨.google "gemini-2.5-flash-preview-04-17"
        ⟨st.systemMessage, GoogleProvider.formatConversation pjv st.conversation⟩,
        ?_, by simp [hc, MCPClient.ProviderInstance.providerName]⟩
      simp [MCPClient.ensureProviderInstance, MCPClient.setLLMProvider,
        jsToLower, hprev, hc]
    · rw [hc] at hprev
      simp [MCPClient.providerConfigOk, jsToLower] at hprev
      refine ⟨.deepseek "deepseek-chat", ?_,
        by simp [hc, MCPClient.ProviderInstance.providerName]⟩
      simp [MCPClient.ensureProviderInstance, MCPClient.setLLMProvider,
        jsToLower, hprev, hc]

/-- Witness for `config_error_fatal_at_startup_nonfatal_at_switch`: an
unsupported configured name is fatal at startup, and a switch to a
provider with a missing key fails while Anthropic stays active. -/
theorem config_error_witness :
    MCPClient.providerConfigOk ⟨true, false, false, false⟩ (some "mistral") = false ∧
    MCPClient.providerConfigOk ⟨true, false, false, false⟩ (some "openai") = false ∧
    MCPClient.providerConfigOk ⟨true, false, false, false⟩ (some "anthropic") = true ∧
    ((∃ e, MCPClient.mkClient (fun _ => none) ⟨true, false, false, false⟩
        ⟨some "mistral", none⟩ = .error e) ∧
     (MCPClient.setLLMProvider (fun _ => none) ⟨true, false, false, false⟩
        ⟨some "anthropic", some (.anthropic "claude-3-5-sonnet-latest"),
         [Msg.user (.str "hi")], "sys", none⟩ (some "openai") none).1 = false ∧
     (MCPClient.setLLMProvider (fun _ => none) ⟨true, false, false, false⟩
        ⟨some "anthropic", some (.anthropic "claude-3-5-sonnet-latest"),
         [Msg.user (.str "hi")], "sys", none⟩ (some "openai") none).2.llmProvider =
        some "anthropic" ∧
     (MCPClient.setLLMProvider (fun _ => none) ⟨true, false, false, false⟩
        ⟨some "anthropic", some (.anthropic "claude-3-5-sonnet-latest"),
         [Msg.user (.str "hi")], "sys", none⟩ (some "openai") none).2.conversation =
        [Msg.user (.str "hi")] ∧
     (∃ inst, (MCPClient.ensureProviderInstance (fun _ => none)
          ⟨true, false, false, false⟩
          (MCPClient.setLLMProvider (fun _ => none) ⟨true, false, false, false⟩
            ⟨some "anthropic", some (.anthropic "claude-3-5-sonnet-latest"),
             [Msg.user (.str "hi")], "sys", none⟩ (some "openai") none).2).activeInstance =
        some inst ∧
      some inst.providerName = (some "anthropic" : Option String))) :=
  ⟨by decide, by decide, by decide,
   config_error_fatal_at_startup_nonfatal_at_switch (fun _ => none)
     ⟨true, false, false, false⟩ ⟨some "mistral", none⟩
     ⟨some "anthropic", some (.anthropic "claude-3-5-sonnet-latest"),
      [Msg.user (.str "hi")], "sys", none⟩ (some "openai") none
     (by decide) (by decide) (by decide) (Or.inl rfl)⟩

/-- An OpenAI response whose first choice has no `tool_calls` field yields
no extracted tool calls. -/
theorem extractToolCalls_none_of_no_raw (pjv : String → Option Json)
    (r : OAIResponse) (h : respHasToolCallsOpenAI r = false) :
    OpenAIProvider.extractToolCalls pjv r = none := by
  rcases r with ⟨choices⟩
  cases choices with
  | nil => rfl
  | cons ch rest =>
    rcases ch with ⟨⟨content, tcs⟩⟩
    cases tcs with
    | none => rfl
    | some tcs => simp [respHasToolCallsOpenAI] at h

/-- Claim C4: for a tool result carrying an image under a
non-vision-native provider, the continuation emits exactly the sequence
[tool-result turn, acknowledgement append, synthetic image turn]: for
OpenAI the trace is send(history ending in the tool turn), append(ack),
append(synthetic image user turn), send(history with the image turn),
append(final); for Google it is send(functionResponse part), append(ack),
send(image parts), append(final).  The acknowledgement is appended to
canonical history strictly before the image-bearing send; the image turn
is never emitted before, or merged into, the tool-result turn. -/
theorem two_step_image_ordering
    (pjv : String → Option Json) (sys sfx : String) (now k : Nat)
    (oracle : Nat → OAIResponse) (goracle : Nat → GoogleResponse)
    (pre : List Msg) (tcid tname : String) (tr : ToolResult)
    (d m gd gm : String)
    (htc1 : respHasToolCallsOpenAI (oracle k) = false)
    (htc2 : respHasToolCallsOpenAI (oracle (k + 1)) = false)
    (himg : OpenAIProvider.extractImageFromToolResult tr = some (d, m))
    (hd : d ≠ "")
    (hg1 : GoogleProvider.extractToolCalls now (goracle k) = none)
    (hg2 : GoogleProvider.extractToolCalls now (goracle (k + 1)) = none)
    (hgimg : GoogleProvider.extractImageFromToolResult tr = some (gd, gm))
    (hgd : gd ≠ "") :
    (MCPClient.continueConversationOpenAI pjv sys sfx none oracle k
        (pre ++ [Msg.tool tcid tname tr]) =
      (pre ++ [Msg.tool tcid tname tr] ++
        [Msg.assistant (OpenAIProvider.extractTextContent (oracle k)) none,
         Msg.user (.parts (OpenAIProvider.prepareImageMessageContent d m
           (MCPClient.openaiImagePrompt (if tname ≠ "" then tname else "the tool")
             (MCPClient.openaiOriginalUserQuery
               (pre ++ [Msg.tool tcid tname tr] ++
                 [Msg.assistant (OpenAIProvider.extractTextContent (oracle k)) none])
               pre.length)))),
         Msg.assistant (OpenAIProvider.extractTextContent (oracle (k + 1))) none],
       [ .sendOpenAI (OpenAIProvider.formatConversation pjv sys sfx
           (pre ++ [Msg.tool tcid tname tr])),
         .appendMsg (Msg.assistant (OpenAIProvider.extractTextContent (oracle k)) none),
         .appendMsg (Msg.user (.parts (OpenAIProvider.prepareImageMessageContent d m
           (MCPClient.openaiImagePrompt (if tname ≠ "" then tname else "the tool")
             (MCPClient.openaiOriginalUserQuery
               (pre ++ [Msg.tool tcid tname tr] ++
                 [Msg.assistant (OpenAIProvider.extractTextContent (oracle k)) none])
               pre.length))))),
         .sendOpenAI (OpenAIProvider.formatConversation pjv sys sfx
           (pre ++ [Msg.tool tcid tname tr] ++
             [Msg.assistant (OpenAIProvider.extractTextContent (oracle k)) none,
              Msg.user (.parts (OpenAIProvider.prepareImageMessageContent d m
                (MCPClient.openaiImagePrompt
                  (if tname ≠ "" then tname else "the tool")
                  (MCPClient.openaiOriginalUserQuery
                    (pre ++ [Msg.tool tcid tname tr] ++
                      [Msg.assistant
                        (OpenAIProvider.extractTextContent (oracle k)) none])
                    pre.length))))])),
         .appendMsg (Msg.assistant
           (OpenAIProvider.extractTextContent (oracle (k + 1))) none) ])) ∧
    (MCPClient.continueConversationGoogle pjv now goracle k
        (pre ++ [Msg.tool tcid tname tr]) =
      (pre ++ [Msg.tool tcid tname tr] ++
        [Msg.assistant (GoogleProvider.extractTextContent (goracle k)) none,
         Msg.assistant (GoogleProvider.extractTextContent (goracle (k + 1))) none],
       [ .sendGoogle [GoogleProvider.convertToolResult pjv tr tname],
         .appendMsg (Msg.assistant (GoogleProvider.extractTextContent (goracle k)) none),
         .sendGoogle (GoogleProvider.prepareImageMessageParts gd gm tname
           (pre ++ [Msg.tool tcid tname tr] ++
             [Msg.assistant (GoogleProvider.extractTextContent (goracle k)) none])),
         .appendMsg (Msg.assistant
           (GoogleProvider.extractTextContent (goracle (k + 1))) none) ])) := by
  have hne1 := extractToolCalls_none_of_no_raw pjv _ htc1
  have hne2 := extractToolCalls_none_of_no_raw pjv _ htc2
  constructor
  · have hidx : ((pre ++ [Msg.tool tcid tname tr]) ++
        [Msg.assistant (OpenAIProvider.extractTextContent (oracle k)) none]).length -
        2 = pre.length := by
      simp
    have hget : ((pre ++ [Msg.tool tcid tname tr]) ++
        [Msg.assistant (OpenAIProvider.extractTextContent (oracle k)) none])[
          pre.length]? = some (Msg.tool tcid tname tr) := by
      rw [List.append_assoc, List.getElem?_append_right (Nat.le_refl _)]
      simp
    simp only [MCPClient.continueConversationOpenAI,
      MCPClient.trimConversationHistory, handleLLMResponseOpenAI,
      handleLLMResponseCore, hne1, hne2, htc1, Bool.false_eq_true, if_false,
      hidx, hget, himg, hd, ne_eq, not_false_eq_true, if_true, if_neg]
    simp [List.append_assoc]
  · have hlast : (pre ++ [Msg.tool tcid tname tr]).getLast? =
        some (Msg.tool tcid tname tr) := by
      simp
    simp only [MCPClient.continueConversationGoogle, hlast,
      handleLLMResponseGoogle, handleLLMResponseCore, hg1, hg2, hgimg, hgd,
      ne_eq, not_false_eq_true, if_true]
    simp [List.append_assoc]

/-- Witness for `two_step_image_ordering`: a concrete screenshot-style
tool result after a user request and an assistant tool call. -/
theorem two_step_image_ordering_witness :
    respHasToolCallsOpenAI ⟨[⟨⟨some "ok", none⟩⟩]⟩ = false ∧
    OpenAIProvider.extractImageFromToolResult
      (.obj none none none (some [ContentBlock.image "AAAA" "image/png"]) []) =
      some ("AAAA", "image/png") ∧
    ("AAAA" : String) ≠ "" ∧
    GoogleProvider.extractToolCalls 0
      ⟨some ⟨some [⟨some ⟨some [.text "ok"]⟩⟩]⟩⟩ = none ∧
    GoogleProvider.extractImageFromToolResult
      (.obj none none none (some [ContentBlock.image "AAAA" "image/png"]) []) =
      some ("AAAA", "image/png") ∧
    (MCPClient.continueConversationGoogle (fun _ => none) 0
        (fun _ => ⟨some ⟨some [⟨some ⟨some [.text "ok"]⟩⟩]⟩⟩) 0
        ([Msg.user (.str "q"), Msg.assistant "" (some [⟨"id1", "shot", none⟩])] ++
          [Msg.tool "id1" "shot"
            (.obj none none none (some [ContentBlock.image "AAAA" "image/png"]) [])]) =
      ([Msg.user (.str "q"), Msg.assistant "" (some [⟨"id1", "shot", none⟩])] ++
        [Msg.tool "id1" "shot"
          (.obj none none none (some [ContentBlock.image "AAAA" "image/png"]) [])] ++
        [Msg.assistant "ok" none, Msg.assistant "ok" none],
       [ .sendGoogle [GoogleProvider.convertToolResult (fun _ => none)
           (.obj none none none (some [ContentBlock.image "AAAA" "image/png"]) [])
           "shot"],
         .appendMsg (Msg.assistant "ok" none),
         .sendGoogle (GoogleProvider.prepareImageMessageParts "AAAA" "image/png"
           "shot"
           ([Msg.user (.str "q"), Msg.assistant "" (some [⟨"id1", "shot", none⟩])] ++
             [Msg.tool "id1" "shot"
               (.obj none none none
                 (some [ContentBlock.image "AAAA" "image/png"]) [])] ++
             [Msg.assistant "ok" none])),
         .appendMsg (Msg.assistant "ok" none) ])) ∧
    (MCPClient.continueConversationOpenAI (fun _ => none) "sys" "sfx" none
        (fun _ => ⟨[⟨⟨some "ok", none⟩⟩]⟩) 0
        ([Msg.user (.str "q"), Msg.assistant "" (some [⟨"id1", "shot", none⟩])] ++
          [Msg.tool "id1" "shot"
            (.obj none none none (some [ContentBlock.image "AAAA" "image/png"]) [])])).2 =
      [ .sendOpenAI (OpenAIProvider.formatConversation (fun _ => none) "sys" "sfx"
          ([Msg.user (.str "q"), Msg.assistant "" (some [⟨"id1", "shot", none⟩])] ++
            [Msg.tool "id1" "shot"
              (.obj none none none (some [ContentBlock.image "AAAA" "image/png"]) [])])),
        .appendMsg (Msg.assistant "ok" none),
        .appendMsg (Msg.user (.parts
          (OpenAIProvider.prepareImageMessageContent "AAAA" "image/png"
            (MCPClient.openaiImagePrompt "shot" "q")))),
        .sendOpenAI (OpenAIProvider.formatConversation (fun _ => none) "sys" "sfx"
          ([Msg.user (.str "q"), Msg.assistant "" (some [⟨"id1", "shot", none⟩])] ++
            [Msg.tool "id1" "shot"
              (.obj none none none (some [ContentBlock.image "AAAA" "image/png"]) [])] ++
            [Msg.assistant "ok" none,
             Msg.user (.parts
               (OpenAIProvider.prepareImageMessageContent "AAAA" "image/png"
                 (MCPClient.openaiImagePrompt "shot" "q")))])),
        .appendMsg (Msg.assistant "ok" none) ] := by
  have h := two_step_image_ordering (fun _ => none) "sys" "sfx" 0 0
    (fun _ => ⟨[⟨⟨some "ok", none⟩⟩]⟩)
    (fun _ => ⟨some ⟨some [⟨some ⟨some [.text "ok"]⟩⟩]⟩⟩)
    [Msg.user (.str "q"), Msg.assistant "" (some [⟨"id1", "shot", none⟩])]
    "id1" "shot"
    (.obj none none none (some [ContentBlock.image "AAAA" "image/png"]) [])
    "AAAA" "image/png" "AAAA" "image/png"
    rfl rfl rfl (by decide) rfl rfl rfl (by decide)
  exact ⟨rfl, rfl, by decide, rfl, rfl, h.2, congrArg Prod.snd h.1⟩

/-- Claim C7 (code evaluation at the failing input): on a response holding
one well-formed tool call and one whose arguments string is not parseable,
`HuggingFaceProvider.extractToolCalls` throws (its `JSON.parse` runs
inside `.map` with no `try`/`catch`), while `OpenAIProvider.extractToolCalls`
drops the malformed call and returns only the well-formed one. -/
theorem hf_extract_throws_on_malformed_args :
    HuggingFaceProvider.extractToolCalls
      (fun s => if s = "\x7b\x7d" then some (Json.obj []) else none)
      ⟨[⟨⟨none, some
          [⟨"call_1", "function", ⟨"add", "\x7b\x7d"⟩⟩,
           ⟨"call_2", "function", ⟨"bad", "not json"⟩⟩]⟩⟩]⟩ =
      Except.error "SyntaxError: JSON.parse failed on tool call arguments" ∧
    OpenAIProvider.extractToolCalls
      (fun s => if s = "\x7b\x7d" then some (Json.obj []) else none)
      ⟨[⟨⟨none, some
          [⟨"call_1", "function", ⟨"add", "\x7b\x7d"⟩⟩,
           ⟨"call_2", "function", ⟨"bad", "not json"⟩⟩]⟩⟩]⟩ =
      some [⟨"call_1", "add", some (Json.obj [])⟩] := by
  constructor <;> rfl

end UMC
